import Mathlib

/-!
Shallow embedding of the `time-locked-vault` repository (Rust sources under
`src/locked-vault/src/`): the deposit-ledger state machine of
`contract/contract_core.rs`, the data model of `models.rs` and `errors.rs`,
and the UTXO coin-selection engine of `bitcoin/utxo.rs` together with the
fee math of `bitcoin/testnet.rs`.

Modelling conventions:
* Rust `u64`/`u32`/`u8`/`u128` values are `Nat`s; every place the source uses
  `checked_add` / `checked_sub` / `checked_mul` / saturating arithmetic the
  bound check is written out explicitly against the corresponding
  `2 ^ width - 1` constant.  Unchecked sums (UTXO amounts) are plain `Nat`
  sums, which agrees with the source whenever no `u64` overflow occurs.
* `chrono::DateTime<Utc>` instants are `Int`s (seconds); `Duration::days d`
  is `d * 86400` seconds.
* Rust `f64` fee rates are exact rationals `ℚ`; the `as u64` cast of a
  nonnegative finite float truncates toward zero and saturates, modelled by
  `f64toU64` below.  All fee-rate arithmetic in the source is exact at the
  concrete inputs used in the theorems below.
* `HashMap` fields are association lists with unique keys; lookup, insert
  and in-place modification are `VMap.get`, `VMap.insert`, `VMap.modify`.
* The `TokenTransfer` trait object is a record of pure functions passed to
  every ledger operation; `Result<T, String>` is `Except String T`.
* Each ledger operation returns the post-state paired with its
  `Result`-value: an early `return Err(..)` yields the state as mutated so
  far, exactly following the `&mut self` control flow of the source.
-/

/-- Maximum value of a Rust `u64` (`u64::MAX`). -/
def U64MAX : Nat := 2 ^ 64 - 1

/-- Maximum value of a Rust `u128` (`u128::MAX`). -/
def U128MAX : Nat := 2 ^ 128 - 1

/-- Result of the Rust saturating cast `x as u64` applied to a nonnegative
finite `f64`, here taken as an exact rational: truncation toward zero
(`Int.toNat` sends negative floors to `0`, as the cast sends negative
floats to `0`), saturating at `u64::MAX`. -/
def f64toU64 (q : ℚ) : Nat := min (Int.toNat ⌊q⌋) U64MAX

/-- `TokenType` from `models.rs`: the closed set of asset kinds. -/
inductive TokenType where
  | Bitcoin : TokenType
  | Ethereum : TokenType
  | Solana : TokenType
  | Rune : String → TokenType
  | Ordinal : String → TokenType
  | Lightning : TokenType
  | Custom : String → TokenType
deriving DecidableEq, Repr

/-- Rust `char::is_ascii_hexdigit`. -/
def Char.isAsciiHexdigit (c : Char) : Bool :=
  c.isDigit || ('a' ≤ c && c ≤ 'f') || ('A' ≤ c && c ≤ 'F')

/-- `TokenType::validate` from `models.rs`.  String scans are carried out
on the character list `String.data` (Rust `str::chars`); `is_empty`,
`starts_with` and the `len` bounds agree with the byte-based Rust versions
on ASCII identifiers, and Rust `char::is_alphanumeric` (Unicode-aware) is
modelled by ASCII `Char.isAlphanum`. -/
def TokenType.validate : TokenType → Except String Unit
  | TokenType.Rune id =>
      if id.data.isEmpty then
        Except.error "Rune identifier cannot be empty"
      else if ¬ (id.data.all fun c => c.isAlphanum || c == '_') then
        Except.error "Rune identifier can only contain alphanumeric characters and underscores"
      else if id.data.length < 10 then
        Except.error "Rune identifier must be at least 10 characters long"
      else if ¬ ("RUNE_".data.isPrefixOf id.data) then
        Except.error "Rune identifier must start with RUNE_"
      else
        Except.ok ()
  | TokenType.Ordinal id =>
      if id.data.isEmpty then
        Except.error "Ordinal identifier cannot be empty"
      else if ¬ (id.data.all fun c => c.isAsciiHexdigit) then
        Except.error "Ordinal identifier must be a valid hexadecimal string"
      else if id.data.length < 64 then
        Except.error "Ordinal identifier must be at least 64 characters long"
      else
        Except.ok ()
  | TokenType.Custom id =>
      if id.data.isEmpty then
        Except.error "Custom token identifier cannot be empty"
      else
        Except.ok ()
  | _ => Except.ok ()

/-- `TokenType::is_bitcoin_based` from `models.rs`. -/
def TokenType.is_bitcoin_based : TokenType → Bool
  | TokenType.Bitcoin => true
  | TokenType.Rune _ => true
  | TokenType.Ordinal _ => true
  | TokenType.Lightning => true
  | _ => false

/-- `ContractError` from `errors.rs`. -/
inductive ContractError where
  | InvalidAddress : ContractError
  | InvalidAmount : ContractError
  | InvalidLockPeriod : ContractError
  | InvalidFeePercentage : ContractError
  | DepositNotFound : ContractError
  | DepositAlreadyWithdrawn : ContractError
  | DepositLocked : ContractError
  | InsufficientBalance : ContractError
  | Unauthorized : ContractError
  | ContractPaused : ContractError
  | DepositLimitExceeded : ContractError
  | UserDepositLimitReached : ContractError
  | TotalDepositLimitReached : ContractError
  | UnsupportedTokenOperation : ContractError
  | TokenValidationFailed : ContractError
  | ArithmeticError : ContractError
  | ReentrancyDetected : ContractError
  | InitializationError : String → ContractError
  | BitcoinTestnetError : String → ContractError
  | InvalidBitcoinTransaction : ContractError
deriving DecidableEq, Repr

/-- `impl From<String> for ContractError` from `errors.rs`. -/
def ContractError.fromString (e : String) : ContractError :=
  ContractError.BitcoinTestnetError e

/-- Decidable equality for `Except`, used to evaluate operation results. -/
def exceptDecEq {ε α : Type} [DecidableEq ε] [DecidableEq α] :
    (a b : Except ε α) → Decidable (a = b)
  | Except.error x, Except.error y =>
      if h : x = y then Decidable.isTrue (by rw [h])
      else Decidable.isFalse (fun hh => h (by cases hh; rfl))
  | Except.error _, Except.ok _ => Decidable.isFalse (fun hh => Except.noConfusion hh)
  | Except.ok _, Except.error _ => Decidable.isFalse (fun hh => Except.noConfusion hh)
  | Except.ok x, Except.ok y =>
      if h : x = y then Decidable.isTrue (by rw [h])
      else Decidable.isFalse (fun hh => h (by cases hh; rfl))

instance {ε α : Type} [DecidableEq ε] [DecidableEq α] : DecidableEq (Except ε α) :=
  exceptDecEq

/-- Association-list model of `std::collections::HashMap`; keys are unique
in every state produced by the embedded operations. -/
abbrev VMap (K V : Type) : Type := List (K × V)

namespace VMap

variable {K V : Type} [DecidableEq K]

/-- The empty map (`HashMap::new`). -/
def empty : VMap K V := []

/-- `HashMap::get`. -/
def get : VMap K V → K → Option V
  | [], _ => none
  | p :: ps, k => if p.1 = k then some p.2 else get ps k

/-- `HashMap::insert` (replaces the binding when the key is present). -/
def insert : VMap K V → K → V → VMap K V
  | [], k, v => [(k, v)]
  | p :: ps, k, v => if p.1 = k then (k, v) :: ps else p :: insert ps k v

/-- In-place modification through `HashMap::get_mut`: applies `f` to the
value bound to `k`, leaving the map unchanged when `k` is absent. -/
def modify : VMap K V → K → (V → V) → VMap K V
  | [], _, _ => []
  | p :: ps, k, f => if p.1 = k then (p.1, f p.2) :: ps else p :: modify ps k f

/-- The keys of the map. -/
def keys (m : VMap K V) : List K := m.map Prod.fst

theorem get_insert (m : VMap K V) (k : K) (v : V) (k' : K) :
    get (insert m k v) k' = if k = k' then some v else get m k' := by
  induction m with
  | nil => simp [insert, get]
  | cons p ps ih =>
      by_cases h : p.1 = k
      · subst h
        by_cases h' : p.1 = k' <;> simp [insert, get, h', ih]
      · by_cases h' : p.1 = k'
        · have hkk : ¬ k = k' := fun he => h (h'.trans he.symm)
          have hkk' : ¬ k' = k := fun he => hkk he.symm
          simp [insert, get, h, h', hkk, hkk']
        · simp [insert, get, h, h', ih]

theorem get_modify (m : VMap K V) (k : K) (f : V → V) (k' : K) :
    get (modify m k f) k' =
      if k = k' then (get m k).map f else get m k' := by
  induction m with
  | nil => simp [modify, get]
  | cons p ps ih =>
      by_cases h : p.1 = k
      · subst h
        by_cases h' : p.1 = k' <;> simp [modify, get, h', ih]
      · by_cases h' : p.1 = k'
        · have hkk : ¬ k = k' := fun he => h (h'.trans he.symm)
          have hkk' : ¬ k' = k := fun he => hkk he.symm
          simp [modify, get, h, h', hkk, hkk']
        · simp [modify, get, h, h', ih]

end VMap

/-- `Deposit` from `models.rs`. -/
structure Deposit where
  deposit_id : Nat
  depositor_address : String
  deposited_token_type : TokenType
  deposited_amount : Nat
  deposit_timestamp : Int
  unlock_timestamp : Int
  is_withdrawn : Bool
  withdrawal_tx_hash : Option String
  last_modified : Int
  utxo_reference : Option String
  lightning_payment_hash : Option String
  multisig_wallet : Option String
deriving DecidableEq, Repr

/-- `FeeConfig` from `models.rs`. -/
structure FeeConfig where
  emergency_withdrawal_fee_percentage : Nat
  fee_collector_address : String
  collected_fees : VMap TokenType Nat
deriving DecidableEq, Repr

/-- `DepositLimits` from `models.rs`. -/
structure DepositLimits where
  max_deposit_amounts : VMap TokenType Nat
  max_deposits_per_user : Option Nat
  max_total_deposits : Option Nat
deriving DecidableEq, Repr

/-- `DepositLimits::default` from `models.rs`. -/
def DepositLimits.default : DepositLimits :=
  { max_deposit_amounts := VMap.empty
    max_deposits_per_user := none
    max_total_deposits := none }

/-- The events of `events.rs` produced by the four value-moving ledger
operations (the administrative events are not produced by any embedded
operation). -/
inductive Event where
  | Deposited (deposit_id : Nat) (depositor_address : String)
      (token_type : TokenType) (deposit_amount : Nat)
      (unlock_timestamp : Int) (transaction_hash : Option String)
      (block_number : Option Nat) (timestamp : Int) : Event
  | Withdrawn (deposit_id : Nat) (depositor_address : String)
      (token_type : TokenType) (withdrawn_amount : Nat)
      (is_emergency_withdrawal : Bool) (transaction_hash : Option String)
      (block_number : Option Nat) (timestamp : Int) : Event
  | EmergencyWithdrawn (deposit_id : Nat) (depositor_address : String)
      (token_type : TokenType) (withdrawn_amount : Nat) (fee_amount : Nat)
      (transaction_hash : Option String) (block_number : Option Nat)
      (timestamp : Int) : Event
  | FeeCollected (token_type : TokenType) (fee_amount : Nat)
      (collector_address : String) (transaction_hash : Option String)
      (timestamp : Int) : Event
deriving DecidableEq, Repr

/-- The `TokenTransfer` trait of `models.rs` as a record of pure functions:
the collaborator the ledger drives. -/
structure TokenTransfer where
  transfer_to_contract : String → TokenType → Nat → Except String Unit
  transfer_from_contract : String → TokenType → Nat → Except String Unit
  get_balance : String → TokenType → Except String Nat
  validate_address : String → Except String Unit
  supports_token_type : TokenType → Bool
  get_network_type : String

example : TokenType.validate (TokenType.Rune "RUNE_ABCDE") = Except.ok () := by decide
example : (TokenType.Rune "RUNE_AB").validate ≠ Except.ok () := by decide
example : (TokenType.Ordinal (String.mk (List.replicate 64 'a'))).validate = Except.ok () := by decide

/-- The contract storage `TimeLockedDeposit` of `contract/contract_core.rs`.
The `token_transfer` collaborator is passed to each operation instead of
being stored; the `initialized` flag, `version` string and
`last_maintenance` stamp are constants never read by any embedded
operation and are omitted.  `reentrancy_entered` is the `ReentrancyGuard`
cell, `false` whenever no operation is in flight. -/
structure TimeLockedDeposit where
  contract_owner_address : String
  next_deposit_id : Nat
  deposit_registry : VMap Nat Deposit
  user_deposit_ids : VMap String (List Nat)
  fee_config : FeeConfig
  is_contract_paused : Bool
  deposit_limits : DepositLimits
  pending_owner : Option String
  supported_tokens : List TokenType
  total_deposits : VMap TokenType Nat
  reentrancy_entered : Bool
deriving DecidableEq, Repr

/-- The identifier `"0".repeat(64)` used for default Ordinal support. -/
def ord0 : String := String.mk (List.replicate 64 '0')

namespace TimeLockedDeposit

/-- `TimeLockedDeposit::new` from `contract_core.rs`. -/
def new (tt : TokenTransfer) (contract_owner_address : String)
    (emergency_withdrawal_fee_percentage : Nat) :
    Except ContractError TimeLockedDeposit :=
  if emergency_withdrawal_fee_percentage > 100 then
    Except.error ContractError.InvalidFeePercentage
  else if contract_owner_address.data.isEmpty then
    Except.error ContractError.InvalidAddress
  else
    match tt.validate_address contract_owner_address with
    | Except.error e => Except.error (ContractError.InitializationError e)
    | Except.ok _ =>
        let supported_tokens :=
          [TokenType.Bitcoin, TokenType.Ethereum, TokenType.Solana,
            TokenType.Rune "RUNE_DEFAULT_TOKEN"]
          ++ (if tt.supports_token_type (TokenType.Ordinal ord0) then
                [TokenType.Ordinal ord0] else [])
          ++ (if tt.supports_token_type TokenType.Lightning then
                [TokenType.Lightning] else [])
        Except.ok
          { contract_owner_address := contract_owner_address
            next_deposit_id := 1
            deposit_registry := VMap.empty
            user_deposit_ids := VMap.empty
            fee_config :=
              { emergency_withdrawal_fee_percentage := emergency_withdrawal_fee_percentage
                fee_collector_address := contract_owner_address
                collected_fees := VMap.empty }
            is_contract_paused := false
            deposit_limits := DepositLimits.default
            pending_owner := none
            supported_tokens := supported_tokens
            total_deposits := VMap.empty
            reentrancy_entered := false }

/-- The precondition chain of `deposit` (`contract_core.rs:139-213`): the
error of the first failing check, `none` when all checks pass.  The checks
appear in source order; `<|>` on `Option` returns the first `some`. -/
def depositCheckError (tt : TokenTransfer) (st : TimeLockedDeposit)
    (caller_address : String) (token_type : TokenType) (deposit_amount : Nat)
    (lock_period_days : Nat) : Option ContractError :=
  (if st.is_contract_paused then some ContractError.ContractPaused else none)
  <|> (match tt.validate_address caller_address with
       | Except.error _ => some ContractError.InvalidAddress
       | Except.ok _ => none)
  <|> (if token_type ∉ st.supported_tokens then
         some ContractError.UnsupportedTokenOperation else none)
  <|> (match token_type.validate with
       | Except.error _ => some ContractError.TokenValidationFailed
       | Except.ok _ => none)
  <|> (if deposit_amount = 0 then some ContractError.InvalidAmount else none)
  <|> (if deposit_amount > U64MAX / 2 then some ContractError.InvalidAmount else none)
  <|> (if lock_period_days = 0 then some ContractError.InvalidLockPeriod else none)
  <|> (if lock_period_days > 3650 then some ContractError.InvalidLockPeriod else none)
  <|> (match VMap.get st.deposit_limits.max_deposit_amounts token_type with
       | some max_amount =>
           if deposit_amount > max_amount then
             some ContractError.DepositLimitExceeded else none
       | none => none)
  <|> (match st.deposit_limits.max_deposits_per_user with
       | some max_deposits =>
           if ((VMap.get st.user_deposit_ids caller_address).getD []).length ≥
               max_deposits then
             some ContractError.UserDepositLimitReached else none
       | none => none)
  <|> (match st.deposit_limits.max_total_deposits with
       | some max_total =>
           let current_total := (VMap.get st.total_deposits token_type).getD 0
           if current_total + deposit_amount ≤ U64MAX then
             if current_total + deposit_amount ≤ max_total then none
             else some ContractError.TotalDepositLimitReached
           else some ContractError.ArithmeticError
       | none => none)
  <|> (match tt.get_balance caller_address token_type with
       | Except.ok balance =>
           if balance < deposit_amount then
             some ContractError.InsufficientBalance else none
       | Except.error e => some (ContractError.fromString e))

/-- `TimeLockedDeposit::deposit` from `contract_core.rs`.  `now` is the
value of `Utc::now()`; the returned state is the contract after the call,
also on the error paths. -/
def deposit (tt : TokenTransfer) (st : TimeLockedDeposit) (now : Int)
    (caller_address : String) (token_type : TokenType) (deposit_amount : Nat)
    (lock_period_days : Nat) (utxo_reference : Option String) :
    TimeLockedDeposit × Except ContractError Event :=
  if st.reentrancy_entered then (st, Except.error ContractError.ReentrancyDetected)
  else
    match depositCheckError tt st caller_address token_type deposit_amount lock_period_days with
    | some e => (st, Except.error e)
    | none =>
      match tt.transfer_to_contract caller_address token_type deposit_amount with
      | Except.error e => (st, Except.error (ContractError.fromString e))
      | Except.ok _ =>
        let current_timestamp := now
        let unlock_timestamp := now + (lock_period_days : Int) * 86400
        let deposit_id := st.next_deposit_id
        if st.next_deposit_id + 1 > U64MAX then
          (st, Except.error ContractError.ArithmeticError)
        else
          let st1 := { st with next_deposit_id := st.next_deposit_id + 1 }
          let lightning_payment_hash :=
            if token_type = TokenType.Lightning then
              some ("lightning_payment_" ++ toString deposit_id)
            else none
          let multisig_wallet :=
            if token_type.is_bitcoin_based && "2".data.isPrefixOf caller_address.data then
              some ("multisig_wallet_" ++ toString deposit_id)
            else none
          let new_deposit : Deposit :=
            { deposit_id := deposit_id
              depositor_address := caller_address
              deposited_token_type := token_type
              deposited_amount := deposit_amount
              deposit_timestamp := current_timestamp
              unlock_timestamp := unlock_timestamp
              is_withdrawn := false
              withdrawal_tx_hash := none
              last_modified := current_timestamp
              utxo_reference := utxo_reference
              lightning_payment_hash := lightning_payment_hash
              multisig_wallet := multisig_wallet }
          let st2 := { st1 with
            deposit_registry := VMap.insert st1.deposit_registry deposit_id new_deposit }
          let st3 := { st2 with
            user_deposit_ids := VMap.insert st2.user_deposit_ids caller_address
              (((VMap.get st2.user_deposit_ids caller_address).getD []) ++ [deposit_id]) }
          let current_total := (VMap.get st3.total_deposits token_type).getD 0
          if current_total + deposit_amount > U64MAX then
            (st3, Except.error ContractError.ArithmeticError)
          else
            ({ st3 with
                total_deposits := VMap.insert st3.total_deposits token_type
                  (current_total + deposit_amount) },
              Except.ok (Event.Deposited deposit_id caller_address token_type
                deposit_amount unlock_timestamp none none current_timestamp))

/-- `TimeLockedDeposit::withdraw` from `contract_core.rs`.  Note the
source marks the deposit withdrawn (`contract_core.rs:326-328`) before the
collaborator transfer (`:334`); on a transfer error the returned state
keeps that mutation. -/
def withdraw (tt : TokenTransfer) (st : TimeLockedDeposit) (now : Int)
    (caller_address : String) (deposit_id : Nat) :
    TimeLockedDeposit × Except ContractError Event :=
  if st.reentrancy_entered then (st, Except.error ContractError.ReentrancyDetected)
  else if st.is_contract_paused then (st, Except.error ContractError.ContractPaused)
  else
    match tt.validate_address caller_address with
    | Except.error _ => (st, Except.error ContractError.InvalidAddress)
    | Except.ok _ =>
      match VMap.get st.deposit_registry deposit_id with
      | none => (st, Except.error ContractError.DepositNotFound)
      | some dep =>
        if dep.depositor_address ≠ caller_address then
          (st, Except.error ContractError.Unauthorized)
        else if dep.is_withdrawn then
          (st, Except.error ContractError.DepositAlreadyWithdrawn)
        else if now < dep.unlock_timestamp then
          (st, Except.error ContractError.DepositLocked)
        else
          let st1 := { st with
            deposit_registry := VMap.modify st.deposit_registry deposit_id
              (fun d => { d with is_withdrawn := true, last_modified := now }) }
          let token_type := dep.deposited_token_type
          let amount := dep.deposited_amount
          match tt.transfer_from_contract caller_address token_type amount with
          | Except.error e => (st1, Except.error (ContractError.fromString e))
          | Except.ok _ =>
            let st2 := { st1 with
              total_deposits := VMap.modify st1.total_deposits token_type
                (fun total => total - amount) }
            (st2, Except.ok (Event.Withdrawn deposit_id caller_address token_type
              amount false none none now))

/-- `TimeLockedDeposit::emergency_withdraw` from `contract_core.rs`.  The
fee is `(amount as u128 * pct as u128) / 100` narrowed back to `u64`
(`ArithmeticError` when any step fails); the deposit is marked withdrawn
before the collaborator transfer, and the fee accrual
(`entry().or_insert(0)` then checked add) follows the transfer. -/
def emergency_withdraw (tt : TokenTransfer) (st : TimeLockedDeposit) (now : Int)
    (caller_address : String) (deposit_id : Nat) :
    TimeLockedDeposit × Except ContractError Event :=
  if st.reentrancy_entered then (st, Except.error ContractError.ReentrancyDetected)
  else if st.is_contract_paused then (st, Except.error ContractError.ContractPaused)
  else
    match tt.validate_address caller_address with
    | Except.error _ => (st, Except.error ContractError.InvalidAddress)
    | Except.ok _ =>
      match VMap.get st.deposit_registry deposit_id with
      | none => (st, Except.error ContractError.DepositNotFound)
      | some dep =>
        if dep.depositor_address ≠ caller_address then
          (st, Except.error ContractError.Unauthorized)
        else if dep.is_withdrawn then
          (st, Except.error ContractError.DepositAlreadyWithdrawn)
        else
          let fee_percentage := st.fee_config.emergency_withdrawal_fee_percentage
          if dep.deposited_amount * fee_percentage > U128MAX then
            (st, Except.error ContractError.ArithmeticError)
          else if dep.deposited_amount * fee_percentage / 100 > U64MAX then
            (st, Except.error ContractError.ArithmeticError)
          else
            let fee_amount := dep.deposited_amount * fee_percentage / 100
            if dep.deposited_amount < fee_amount then
              (st, Except.error ContractError.ArithmeticError)
            else
              let net_withdrawal_amount := dep.deposited_amount - fee_amount
              let st1 := { st with
                deposit_registry := VMap.modify st.deposit_registry deposit_id
                  (fun d => { d with is_withdrawn := true, last_modified := now }) }
              let token_type := dep.deposited_token_type
              match tt.transfer_from_contract caller_address token_type
                  net_withdrawal_amount with
              | Except.error e => (st1, Except.error (ContractError.fromString e))
              | Except.ok _ =>
                let fees0 := st1.fee_config.collected_fees
                let feesEnt :=
                  match VMap.get fees0 token_type with
                  | some _ => fees0
                  | none => VMap.insert fees0 token_type 0
                let current_fees := (VMap.get feesEnt token_type).getD 0
                if current_fees + fee_amount > U64MAX then
                  ({ st1 with
                      fee_config := { st1.fee_config with collected_fees := feesEnt } },
                    Except.error ContractError.ArithmeticError)
                else
                  let st2 := { st1 with
                    fee_config := { st1.fee_config with
                      collected_fees := VMap.insert feesEnt token_type
                        (current_fees + fee_amount) } }
                  let st3 := { st2 with
                    total_deposits := VMap.modify st2.total_deposits token_type
                      (fun total => total - dep.deposited_amount) }
                  (st3, Except.ok (Event.EmergencyWithdrawn deposit_id caller_address
                    token_type net_withdrawal_amount fee_amount none none now))

/-- `TimeLockedDeposit::withdraw_fees` from `contract_core.rs`.  The
collected fee is reset to zero (`contract_core.rs:457-464`) before the
collector address is re-validated and the transfer is requested. -/
def withdraw_fees (tt : TokenTransfer) (st : TimeLockedDeposit) (now : Int)
    (caller_address : String) (token_type : TokenType) :
    TimeLockedDeposit × Except ContractError Event :=
  if st.reentrancy_entered then (st, Except.error ContractError.ReentrancyDetected)
  else if caller_address ≠ st.contract_owner_address then
    (st, Except.error ContractError.Unauthorized)
  else
    match token_type.validate with
    | Except.error _ => (st, Except.error ContractError.TokenValidationFailed)
    | Except.ok _ =>
      match VMap.get st.fee_config.collected_fees token_type with
      | some amount =>
          if amount > 0 then
            let fee_amount := amount
            let st1 := { st with
              fee_config := { st.fee_config with
                collected_fees := VMap.modify st.fee_config.collected_fees
                  token_type (fun _ => 0) } }
            match tt.validate_address st1.fee_config.fee_collector_address with
            | Except.error _ => (st1, Except.error ContractError.InvalidAddress)
            | Except.ok _ =>
              match tt.transfer_from_contract st1.fee_config.fee_collector_address
                  token_type fee_amount with
              | Except.error e => (st1, Except.error (ContractError.fromString e))
              | Except.ok _ =>
                (st1, Except.ok (Event.FeeCollected token_type fee_amount
                  st1.fee_config.fee_collector_address none now))
          else (st, Except.error ContractError.InvalidAmount)
      | none => (st, Except.error ContractError.InvalidAmount)

/-- `TimeLockedDeposit::add_supported_token` from `contract_core.rs`
(no reentrancy guard and no pause check in the source). -/
def add_supported_token (tt : TokenTransfer) (st : TimeLockedDeposit)
    (caller_address : String) (token_type : TokenType) :
    TimeLockedDeposit × Except ContractError Unit :=
  if caller_address ≠ st.contract_owner_address then
    (st, Except.error ContractError.Unauthorized)
  else
    match token_type.validate with
    | Except.error _ => (st, Except.error ContractError.TokenValidationFailed)
    | Except.ok _ =>
      if token_type ∈ st.supported_tokens then
        (st, Except.error ContractError.UnsupportedTokenOperation)
      else if ¬ tt.supports_token_type token_type then
        (st, Except.error ContractError.UnsupportedTokenOperation)
      else
        ({ st with supported_tokens := st.supported_tokens ++ [token_type] },
          Except.ok ())

/-- `TimeLockedDeposit::remove_supported_token` from `contract_core.rs`. -/
def remove_supported_token (st : TimeLockedDeposit)
    (caller_address : String) (token_type : TokenType) :
    TimeLockedDeposit × Except ContractError Unit :=
  if caller_address ≠ st.contract_owner_address then
    (st, Except.error ContractError.Unauthorized)
  else if token_type ∉ st.supported_tokens then
    (st, Except.error ContractError.UnsupportedTokenOperation)
  else
    match VMap.get st.total_deposits token_type with
    | some total =>
        if total > 0 then
          (st, Except.error ContractError.UnsupportedTokenOperation)
        else
          ({ st with supported_tokens :=
              st.supported_tokens.filter (fun t => t ≠ token_type) },
            Except.ok ())
    | none =>
        ({ st with supported_tokens :=
            st.supported_tokens.filter (fun t => t ≠ token_type) },
          Except.ok ())

end TimeLockedDeposit

/-- `Utxo` from `bitcoin/utxo.rs`. -/
structure Utxo where
  txid : String
  vout : Nat
  amount : Nat
  confirmations : Nat
  script_pubkey : String
  address : String
  spendable : Bool
deriving DecidableEq, Repr

/-- `Utxo::reference` from `bitcoin/utxo.rs` (`"{txid}:{vout}"`). -/
def Utxo.reference (u : Utxo) : String := u.txid ++ ":" ++ toString u.vout

/-- `Utxo::estimate_input_size` from `bitcoin/utxo.rs`: the constant 180. -/
def Utxo.estimate_input_size (_ : Utxo) : Nat := 180

/-- `UtxoSet` from `bitcoin/utxo.rs`: `utxos` is the sequence produced by
`self.utxos.values()` (the `HashMap`'s iteration order) and `total_amount`
the cached running sum read by `select_utxos`. -/
structure UtxoSet where
  utxos : List Utxo
  total_amount : Nat
deriving DecidableEq, Repr

/-- Stable insertion step for the descending-by-amount sort. -/
def insertByAmountDesc (u : Utxo) : List Utxo → List Utxo
  | [] => [u]
  | v :: vs =>
      if u.amount ≥ v.amount then u :: v :: vs else v :: insertByAmountDesc u vs

/-- The sort `sorted_utxos.sort_by(|a, b| b.amount.cmp(&a.amount))` of
`select_branch_and_bound`: Rust's `sort_by` is stable, and the stable
descending-by-amount permutation of a list is unique, so this stable
insertion sort computes exactly the source's result. -/
def sortByAmountDesc (l : List Utxo) : List Utxo := l.foldr insertByAmountDesc []

/-- Stable insertion step for the ascending-by-amount sort. -/
def insertByAmountAsc (u : Utxo) : List Utxo → List Utxo
  | [] => [u]
  | v :: vs =>
      if u.amount ≤ v.amount then u :: v :: vs else v :: insertByAmountAsc u vs

/-- The stable ascending-by-amount sort of `select_knapsack`
(`sort_by(|a, b| a.amount.cmp(&b.amount))`). -/
def sortByAmountAsc (l : List Utxo) : List Utxo := l.foldr insertByAmountAsc []

namespace UtxoSet

/-- `UtxoSet::select_exact_match` from `bitcoin/utxo.rs`: the first entry
(in iteration order) whose amount equals `amount` plus the 1-input fee. -/
def select_exact_match (s : UtxoSet) (amount : Nat) (fee_rate : ℚ) :
    Option (List Utxo × Nat) :=
  match s.utxos.find? (fun u =>
      u.amount == amount +
        f64toU64 (((u.estimate_input_size + 70 : Nat) : ℚ) * fee_rate / 1000)) with
  | some u => some ([u], 0)
  | none => none

/-- `UtxoSet::select_single_with_change` from `bitcoin/utxo.rs`. -/
def select_single_with_change (s : UtxoSet) (amount : Nat) (fee_rate : ℚ) :
    Option (List Utxo × Nat) :=
  match s.utxos.find? (fun u =>
      decide (u.amount > amount +
        f64toU64 (((u.estimate_input_size + 70 : Nat) : ℚ) * fee_rate / 1000))) with
  | some u =>
      some ([u], u.amount - amount -
        f64toU64 (((u.estimate_input_size + 70 : Nat) : ℚ) * fee_rate / 1000))
  | none => none

end UtxoSet

/-- The recursive `search` helper inside
`UtxoSet::select_branch_and_bound` (`bitcoin/utxo.rs:185-232`): `best` is
the pair (`best_selection`, `best_waste`). -/
def bnbSearch (utxos : List Utxo) (target : Nat) (current_sum : Nat)
    (current_selection : List Utxo) (best : Option (List Utxo) × Nat)
    (index : Nat) : Option (List Utxo) × Nat :=
  if current_sum ≥ target then
    let waste := current_sum - target
    if waste < best.2 then (some current_selection, waste) else best
  else if h : index < utxos.length then
    let best1 := bnbSearch utxos target (current_sum + utxos[index].amount)
      (current_selection ++ [utxos[index]]) best (index + 1)
    bnbSearch utxos target current_sum current_selection best1 (index + 1)
  else best
termination_by utxos.length - index

/-- The candidate subsets the `search` traversal of
`select_branch_and_bound` visits, in visit order (include branch before
exclude branch), each paired with its waste `sum - target`. -/
def bnbCandidates (utxos : List Utxo) (target : Nat) (current_sum : Nat)
    (current_selection : List Utxo) (index : Nat) : List (List Utxo × Nat) :=
  if current_sum ≥ target then [(current_selection, current_sum - target)]
  else if h : index < utxos.length then
    bnbCandidates utxos target (current_sum + utxos[index].amount)
      (current_selection ++ [utxos[index]]) (index + 1)
    ++ bnbCandidates utxos target current_sum current_selection (index + 1)
  else []
termination_by utxos.length - index

namespace UtxoSet

/-- `UtxoSet::select_branch_and_bound` from `bitcoin/utxo.rs`. -/
def select_branch_and_bound (s : UtxoSet) (amount : Nat) (fee_rate : ℚ) :
    Option (List Utxo × Nat) :=
  let sorted_utxos := sortByAmountDesc s.utxos
  let target := amount
  match bnbSearch sorted_utxos target 0 [] (none, U64MAX) 0 with
  | (some selection, _) =>
      let total_input := (selection.map Utxo.amount).sum
      let tx_size := (selection.map Utxo.estimate_input_size).sum + 70
      let fee := f64toU64 ((tx_size : ℚ) * fee_rate / 1000)
      if total_input > amount + fee then
        some (selection, total_input - amount - fee)
      else none
  | (none, _) => none

end UtxoSet

/-- The greedy accumulation loop of `UtxoSet::select_knapsack`
(`bitcoin/utxo.rs:275-288`): adds entries in order, recomputing the fee
after each addition, until the running sum covers `amount + fee`. -/
def knapsackGo (amount : Nat) (fee_rate : ℚ) :
    List Utxo → List Utxo → Nat → Except ContractError (List Utxo × Nat)
  | [], _, _ => Except.error ContractError.InsufficientBalance
  | u :: rest, selected, total_selected =>
      let selected' := selected ++ [u]
      let total' := total_selected + u.amount
      let tx_size := (selected'.map Utxo.estimate_input_size).sum + 70
      let fee := f64toU64 ((tx_size : ℚ) * fee_rate / 1000)
      if total' ≥ amount + fee then Except.ok (selected', total' - amount - fee)
      else knapsackGo amount fee_rate rest selected' total'

namespace UtxoSet

/-- `UtxoSet::select_knapsack` from `bitcoin/utxo.rs`. -/
def select_knapsack (s : UtxoSet) (amount : Nat) (fee_rate : ℚ) :
    Except ContractError (List Utxo × Nat) :=
  knapsackGo amount fee_rate (sortByAmountAsc s.utxos) [] 0

/-- `UtxoSet::select_utxos` from `bitcoin/utxo.rs`: the four selection
algorithms tried in order, first success wins. -/
def select_utxos (s : UtxoSet) (amount : Nat) (fee_rate : ℚ) :
    Except ContractError (List Utxo × Nat) :=
  if s.total_amount < amount then Except.error ContractError.InsufficientBalance
  else
    match s.select_exact_match amount fee_rate with
    | some result => Except.ok result
    | none =>
      match s.select_single_with_change amount fee_rate with
      | some result => Except.ok result
      | none =>
        match s.select_branch_and_bound amount fee_rate with
        | some result => Except.ok result
        | none => s.select_knapsack amount fee_rate

end UtxoSet

/-- `utils::estimate_tx_fee` from `bitcoin/testnet.rs`:
`(tx_size as f64 * fee_rate / 1000.0) as u64`. -/
def estimate_tx_fee (tx_size : Nat) (fee_rate : ℚ) : Nat :=
  f64toU64 ((tx_size : ℚ) * fee_rate / 1000)

/-- `utils::estimate_tx_size` from `bitcoin/testnet.rs`. -/
def estimate_tx_size (input_count output_count : Nat) : Nat :=
  10 + input_count * 148 + output_count * 34

/-- `utils::satoshi_to_btc` from `bitcoin/testnet.rs` (exact-rational
model of the `f64` division by `10^8`). -/
def satoshi_to_btc (satoshi : Nat) : ℚ := (satoshi : ℚ) / 100000000

/-- `utils::btc_to_satoshi` from `bitcoin/testnet.rs`. -/
def btc_to_satoshi (btc : ℚ) : Nat := f64toU64 (btc * 100000000)

theorem knapsackGo_error (amount : Nat) (fee_rate : ℚ) :
    ∀ (l sel : List Utxo) (tot : Nat) (e : ContractError),
      knapsackGo amount fee_rate l sel tot = Except.error e →
      e = ContractError.InsufficientBalance := by
  intro l
  induction l with
  | nil =>
      intro sel tot e h
      simp only [knapsackGo] at h
      cases h
      rfl
  | cons u rest ih =>
      intro sel tot e h
      simp only [knapsackGo] at h
      split at h
      · cases h
      · exact ih _ _ _ h

/-- C3: when the cached set total is strictly below the target amount,
`select_utxos` fails with `InsufficientBalance`; and every error
`select_utxos` can return — including the knapsack-fallback exhaustion,
where the greedy loop runs out of entries before covering target plus the
recomputed fee — is `InsufficientBalance`, carrying no selection
(an `Except.error` result carries no input list). -/
theorem select_utxos_error_spec (s : UtxoSet) (amount : Nat) (fee_rate : ℚ) :
    (s.total_amount < amount →
      s.select_utxos amount fee_rate = Except.error ContractError.InsufficientBalance) ∧
    (∀ e, s.select_utxos amount fee_rate = Except.error e →
      e = ContractError.InsufficientBalance) := by
  constructor
  · intro h
    simp [UtxoSet.select_utxos, h]
  · intro e he
    unfold UtxoSet.select_utxos at he
    split at he
    · cases he
      rfl
    · split at he
      · cases he
      · split at he
        · cases he
        · split at he
          · cases he
          · exact knapsackGo_error _ _ _ _ _ _ he

/-- C3 witness: a two-entry set with cached total 30 fails for target 100. -/
theorem select_utxos_error_spec_witness :
    ({ utxos := [{ txid := "a", vout := 0, amount := 10, confirmations := 3,
                   script_pubkey := "p", address := "d", spendable := true },
                 { txid := "b", vout := 1, amount := 20, confirmations := 0,
                   script_pubkey := "p", address := "d", spendable := false }],
       total_amount := 30 : UtxoSet }).select_utxos 100 1 =
      Except.error ContractError.InsufficientBalance :=
  (select_utxos_error_spec _ 100 1).1 (by decide)

/-- C7: under the preceding `withdraw` preconditions (guard free, not
paused, caller validated, deposit found, caller is the depositor, not yet
withdrawn), `withdraw` fails with `DepositLocked` exactly when `now` is
strictly before the deposit's `unlock_timestamp`, and succeeds at or after
that instant once the collaborator transfer succeeds; and a deposit
created by `deposit` stores `unlock_timestamp = deposit_timestamp +
lock_days · 86400` seconds (`Duration::days`), so a `lock_days = 1`
deposit is withdrawable exactly from `deposit_timestamp + 1` day on. -/
theorem withdraw_timelock_boundary
    (tt : TokenTransfer) (st : TimeLockedDeposit) (now : Int)
    (caller : String) (deposit_id : Nat) (dep : Deposit)
    (hre : st.reentrancy_entered = false)
    (hp : st.is_contract_paused = false)
    (hv : tt.validate_address caller = Except.ok ())
    (hd : VMap.get st.deposit_registry deposit_id = some dep)
    (hown : dep.depositor_address = caller)
    (hw : dep.is_withdrawn = false) :
    (now < dep.unlock_timestamp →
      TimeLockedDeposit.withdraw tt st now caller deposit_id =
        (st, Except.error ContractError.DepositLocked)) ∧
    (dep.unlock_timestamp ≤ now →
      tt.transfer_from_contract caller dep.deposited_token_type
          dep.deposited_amount = Except.ok () →
      (TimeLockedDeposit.withdraw tt st now caller deposit_id).2 =
        Except.ok (Event.Withdrawn deposit_id caller dep.deposited_token_type
          dep.deposited_amount false none none now)) ∧
    (∀ tok amt days uref st' ev,
      TimeLockedDeposit.deposit tt st now caller tok amt days uref =
        (st', Except.ok ev) →
      ∃ d, VMap.get st'.deposit_registry st.next_deposit_id = some d ∧
        d.deposit_timestamp = now ∧
        d.unlock_timestamp = now + (days : Int) * 86400) := by
  refine ⟨?_, ?_, ?_⟩
  · intro hlock
    simp [TimeLockedDeposit.withdraw, hre, hp, hv, hd, hown, hw, hlock]
  · intro hunlock htr
    simp [TimeLockedDeposit.withdraw, hre, hp, hv, hd, hown, hw,
      not_lt.2 hunlock, htr]
  · intro tok amt days uref st' ev hdep
    unfold TimeLockedDeposit.deposit at hdep
    rw [hre] at hdep
    simp only [Bool.false_eq_true, if_false] at hdep
    split at hdep
    · cases hdep
    · split at hdep
      · cases hdep
      · split at hdep
        · cases hdep
        · split at hdep
          · cases hdep
          · cases hdep
            exact ⟨_, by rw [VMap.get_insert, if_pos rfl], rfl, rfl⟩

/-- A concrete collaborator whose calls all succeed; `validate_address`
is the trait's default implementation (rejects only the empty string). -/
def ttOk : TokenTransfer :=
  { transfer_to_contract := fun _ _ _ => Except.ok ()
    transfer_from_contract := fun _ _ _ => Except.ok ()
    get_balance := fun _ _ => Except.ok 1000000
    validate_address := fun a =>
      if a.data.isEmpty then Except.error "Empty address" else Except.ok ()
    supports_token_type := fun _ => true
    get_network_type := "testnet" }

/-- A concrete collaborator that fails every transfer out of the
contract. -/
def ttFailOut : TokenTransfer :=
  { transfer_to_contract := fun _ _ _ => Except.ok ()
    transfer_from_contract := fun _ _ _ => Except.error "rpc down"
    get_balance := fun _ _ => Except.ok 1000000
    validate_address := fun a =>
      if a.data.isEmpty then Except.error "Empty address" else Except.ok ()
    supports_token_type := fun _ => true
    get_network_type := "testnet" }

/-- A concrete Bitcoin deposit of 500 units made at time 0 with a one-day
lock. -/
def dep1 : Deposit :=
  { deposit_id := 1
    depositor_address := "alice"
    deposited_token_type := TokenType.Bitcoin
    deposited_amount := 500
    deposit_timestamp := 0
    unlock_timestamp := 86400
    is_withdrawn := false
    withdrawal_tx_hash := none
    last_modified := 0
    utxo_reference := none
    lightning_payment_hash := none
    multisig_wallet := none }

/-- A concrete contract state holding exactly `dep1`. -/
def stOne : TimeLockedDeposit :=
  { contract_owner_address := "owner"
    next_deposit_id := 2
    deposit_registry := [(1, dep1)]
    user_deposit_ids := [("alice", [1])]
    fee_config :=
      { emergency_withdrawal_fee_percentage := 10
        fee_collector_address := "owner"
        collected_fees := [] }
    is_contract_paused := false
    deposit_limits := DepositLimits.default
    pending_owner := none
    supported_tokens :=
      [TokenType.Bitcoin, TokenType.Ethereum, TokenType.Solana,
        TokenType.Rune "RUNE_DEFAULT_TOKEN"]
    total_deposits := [(TokenType.Bitcoin, 500)]
    reentrancy_entered := false }

/-- C7 witness: the one-day-locked deposit `dep1` cannot be withdrawn one
second before `deposit_timestamp + 1 day` and is withdrawn exactly at that
instant. -/
theorem withdraw_timelock_boundary_witness :
    TimeLockedDeposit.withdraw ttOk stOne 86399 "alice" 1 =
      (stOne, Except.error ContractError.DepositLocked) ∧
    (TimeLockedDeposit.withdraw ttOk stOne 86400 "alice" 1).2 =
      Except.ok (Event.Withdrawn 1 "alice" TokenType.Bitcoin 500 false
        none none 86400) :=
  ⟨(withdraw_timelock_boundary ttOk stOne 86399 "alice" 1 dep1 rfl rfl rfl
      rfl rfl rfl).1 (by decide),
    (withdraw_timelock_boundary ttOk stOne 86400 "alice" 1 dep1 rfl rfl rfl
      rfl rfl rfl).2.1 (by decide) rfl⟩

/-- C6: under the `emergency_withdraw` ownership/not-withdrawn
preconditions, the fee is `⌊amount · fee_percentage / 100⌋` computed in the
widened 128-bit range, `ArithmeticError` is signalled when the narrowed
result exceeds the `u64` range, and the payout is the checked difference
`amount - fee`; the accrued fee is added to the per-token collected fees.
The witness instantiates the spec's concrete case: amount 1000 at
`fee_percentage = 10` accrues fee exactly 100 and pays out exactly 900. -/
theorem emergency_withdraw_fee_math
    (tt : TokenTransfer) (st : TimeLockedDeposit) (now : Int)
    (caller : String) (deposit_id : Nat) (dep : Deposit)
    (hre : st.reentrancy_entered = false)
    (hp : st.is_contract_paused = false)
    (hv : tt.validate_address caller = Except.ok ())
    (hd : VMap.get st.deposit_registry deposit_id = some dep)
    (hown : dep.depositor_address = caller)
    (hw : dep.is_withdrawn = false) :
    (dep.deposited_amount * st.fee_config.emergency_withdrawal_fee_percentage
        ≤ U128MAX →
     U64MAX <
        dep.deposited_amount * st.fee_config.emergency_withdrawal_fee_percentage
          / 100 →
      TimeLockedDeposit.emergency_withdraw tt st now caller deposit_id =
        (st, Except.error ContractError.ArithmeticError)) ∧
    (∀ fee net,
      fee = dep.deposited_amount *
        st.fee_config.emergency_withdrawal_fee_percentage / 100 →
      net = dep.deposited_amount - fee →
      dep.deposited_amount * st.fee_config.emergency_withdrawal_fee_percentage
        ≤ U128MAX →
      fee ≤ U64MAX →
      fee ≤ dep.deposited_amount →
      tt.transfer_from_contract caller dep.deposited_token_type net =
        Except.ok () →
      (VMap.get st.fee_config.collected_fees
          dep.deposited_token_type).getD 0 + fee ≤ U64MAX →
      (TimeLockedDeposit.emergency_withdraw tt st now caller deposit_id).2 =
        Except.ok (Event.EmergencyWithdrawn deposit_id caller
          dep.deposited_token_type net fee none none now) ∧
      VMap.get ((TimeLockedDeposit.emergency_withdraw tt st now caller
            deposit_id).1.fee_config.collected_fees)
          dep.deposited_token_type =
        some ((VMap.get st.fee_config.collected_fees
            dep.deposited_token_type).getD 0 + fee)) := by
  constructor
  · intro h128 hbig
    simp [TimeLockedDeposit.emergency_withdraw, hre, hp, hv, hd, hown, hw,
      Nat.not_lt.2 h128, hbig]
  · intro fee net hfee hnet h128 h64 hsub htr hacc
    subst hfee
    subst hnet
    rcases hcf : VMap.get st.fee_config.collected_fees
        dep.deposited_token_type with _ | cur
    · have hacc0 :
          (0 : Nat) + dep.deposited_amount *
            st.fee_config.emergency_withdrawal_fee_percentage / 100 ≤ U64MAX := by
        simpa [hcf] using hacc
      simp [TimeLockedDeposit.emergency_withdraw, hre, hp, hv, hd, hown, hw,
        Nat.not_lt.2 h128, Nat.not_lt.2 h64, Nat.not_lt.2 hsub, htr, hcf,
        VMap.get_insert, Nat.not_lt.2 hacc0]
    · have haccC :
          cur + dep.deposited_amount *
            st.fee_config.emergency_withdrawal_fee_percentage / 100 ≤ U64MAX := by
        simpa [hcf] using hacc
      simp [TimeLockedDeposit.emergency_withdraw, hre, hp, hv, hd, hown, hw,
        Nat.not_lt.2 h128, Nat.not_lt.2 h64, Nat.not_lt.2 hsub, htr, hcf,
        VMap.get_insert, Nat.not_lt.2 haccC]

/-- The spec's concrete emergency-withdrawal example: a deposit of 1000. -/
def dep1000 : Deposit :=
  { deposit_id := 1
    depositor_address := "alice"
    deposited_token_type := TokenType.Bitcoin
    deposited_amount := 1000
    deposit_timestamp := 0
    unlock_timestamp := 86400
    is_withdrawn := false
    withdrawal_tx_hash := none
    last_modified := 0
    utxo_reference := none
    lightning_payment_hash := none
    multisig_wallet := none }

/-- A concrete contract state holding exactly `dep1000`, with
`fee_percentage = 10`. -/
def stThousand : TimeLockedDeposit :=
  { contract_owner_address := "owner"
    next_deposit_id := 2
    deposit_registry := [(1, dep1000)]
    user_deposit_ids := [("alice", [1])]
    fee_config :=
      { emergency_withdrawal_fee_percentage := 10
        fee_collector_address := "owner"
        collected_fees := [] }
    is_contract_paused := false
    deposit_limits := DepositLimits.default
    pending_owner := none
    supported_tokens :=
      [TokenType.Bitcoin, TokenType.Ethereum, TokenType.Solana,
        TokenType.Rune "RUNE_DEFAULT_TOKEN"]
    total_deposits := [(TokenType.Bitcoin, 1000)]
    reentrancy_entered := false }

/-- C6 witness: `emergency_withdraw` on the 1000-unit deposit with
`fee_percentage = 10` yields the event with fee exactly 100 and net payout
exactly 900, and accrues exactly 100 into the collected fees. -/
theorem emergency_withdraw_fee_math_witness :
    (TimeLockedDeposit.emergency_withdraw ttOk stThousand 5 "alice" 1).2 =
      Except.ok (Event.EmergencyWithdrawn 1 "alice" TokenType.Bitcoin
        900 100 none none 5) ∧
    VMap.get ((TimeLockedDeposit.emergency_withdraw ttOk stThousand 5
        "alice" 1).1.fee_config.collected_fees) TokenType.Bitcoin =
      some 100 := by
  have h := (emergency_withdraw_fee_math ttOk stThousand 5 "alice" 1 dep1000
      rfl rfl rfl rfl rfl rfl).2 100 900 (by decide) (by decide) (by decide)
      (by decide) (by decide) rfl (by decide)
  exact ⟨h.1, by simpa using h.2⟩

theorem deposit_of_checkError (tt : TokenTransfer) (st : TimeLockedDeposit)
    (now : Int) (caller : String) (tok : TokenType) (amount days : Nat)
    (uref : Option String) (e : ContractError)
    (hre : st.reentrancy_entered = false)
    (h : TimeLockedDeposit.depositCheckError tt st caller tok amount days =
      some e) :
    TimeLockedDeposit.deposit tt st now caller tok amount days uref =
      (st, Except.error e) := by
  simp [TimeLockedDeposit.deposit, hre, h]

/-- C4: `deposit` runs its precondition checks in source order and returns
the error of the first failing check: paused; collaborator address
validation; supported-token membership; token validation; zero amount then
overflow-guard amount; zero lock period then maximum lock period; the
optional per-token amount limit; the optional per-user count limit; the
optional aggregate limit, whose checked addition distinguishes
`ArithmeticError` from `TotalDepositLimitReached`; and finally the
collaborator-reported balance. -/
theorem deposit_first_failing_check (tt : TokenTransfer)
    (st : TimeLockedDeposit) (now : Int) (caller : String) (tok : TokenType)
    (amount days : Nat) (uref : Option String)
    (hre : st.reentrancy_entered = false) :
    (st.is_contract_paused = true →
      TimeLockedDeposit.deposit tt st now caller tok amount days uref =
        (st, Except.error ContractError.ContractPaused)) ∧
    (st.is_contract_paused = false →
      (∀ m, tt.validate_address caller = Except.error m →
        TimeLockedDeposit.deposit tt st now caller tok amount days uref =
          (st, Except.error ContractError.InvalidAddress)) ∧
      (tt.validate_address caller = Except.ok () →
        (tok ∉ st.supported_tokens →
          TimeLockedDeposit.deposit tt st now caller tok amount days uref =
            (st, Except.error ContractError.UnsupportedTokenOperation)) ∧
        (tok ∈ st.supported_tokens →
          (∀ m, tok.validate = Except.error m →
            TimeLockedDeposit.deposit tt st now caller tok amount days uref =
              (st, Except.error ContractError.TokenValidationFailed)) ∧
          (tok.validate = Except.ok () →
            (amount = 0 →
              TimeLockedDeposit.deposit tt st now caller tok amount days uref =
                (st, Except.error ContractError.InvalidAmount)) ∧
            (amount ≠ 0 →
              (U64MAX / 2 < amount →
                TimeLockedDeposit.deposit tt st now caller tok amount days uref =
                  (st, Except.error ContractError.InvalidAmount)) ∧
              (amount ≤ U64MAX / 2 →
                (days = 0 →
                  TimeLockedDeposit.deposit tt st now caller tok amount days uref =
                    (st, Except.error ContractError.InvalidLockPeriod)) ∧
                (days ≠ 0 →
                  (3650 < days →
                    TimeLockedDeposit.deposit tt st now caller tok amount days uref =
                      (st, Except.error ContractError.InvalidLockPeriod)) ∧
                  (days ≤ 3650 →
                    (∀ m, VMap.get st.deposit_limits.max_deposit_amounts tok =
                        some m → m < amount →
                      TimeLockedDeposit.deposit tt st now caller tok amount days uref =
                        (st, Except.error ContractError.DepositLimitExceeded)) ∧
                    ((∀ m, VMap.get st.deposit_limits.max_deposit_amounts tok =
                        some m → amount ≤ m) →
                      (∀ mu, st.deposit_limits.max_deposits_per_user = some mu →
                          mu ≤ ((VMap.get st.user_deposit_ids caller).getD []).length →
                        TimeLockedDeposit.deposit tt st now caller tok amount days uref =
                          (st, Except.error ContractError.UserDepositLimitReached)) ∧
                      ((∀ mu, st.deposit_limits.max_deposits_per_user = some mu →
                          ((VMap.get st.user_deposit_ids caller).getD []).length < mu) →
                        (∀ mt, st.deposit_limits.max_total_deposits = some mt →
                          (U64MAX <
                              (VMap.get st.total_deposits tok).getD 0 + amount →
                            TimeLockedDeposit.deposit tt st now caller tok amount days uref =
                              (st, Except.error ContractError.ArithmeticError)) ∧
                          ((VMap.get st.total_deposits tok).getD 0 + amount ≤ U64MAX →
                            mt < (VMap.get st.total_deposits tok).getD 0 + amount →
                            TimeLockedDeposit.deposit tt st now caller tok amount days uref =
                              (st, Except.error ContractError.TotalDepositLimitReached))) ∧
                        ((∀ mt, st.deposit_limits.max_total_deposits = some mt →
                            (VMap.get st.total_deposits tok).getD 0 + amount ≤ U64MAX ∧
                            (VMap.get st.total_deposits tok).getD 0 + amount ≤ mt) →
                          (∀ b, tt.get_balance caller tok = Except.ok b →
                            b < amount →
                            TimeLockedDeposit.deposit tt st now caller tok amount days uref =
                              (st, Except.error ContractError.InsufficientBalance)) ∧
                          (∀ m, tt.get_balance caller tok = Except.error m →
                            TimeLockedDeposit.deposit tt st now caller tok amount days uref =
                              (st, Except.error (ContractError.BitcoinTestnetError m)))))))))))))) := by
  refine ⟨?_, ?_⟩
  · intro hp
    exact deposit_of_checkError _ _ _ _ _ _ _ _ _ hre
      (by simp [TimeLockedDeposit.depositCheckError, hp])
  intro hp
  refine ⟨?_, ?_⟩
  · intro m hv
    exact deposit_of_checkError _ _ _ _ _ _ _ _ _ hre
      (by simp [TimeLockedDeposit.depositCheckError, hp, hv])
  intro hv
  refine ⟨?_, ?_⟩
  · intro hsup
    exact deposit_of_checkError _ _ _ _ _ _ _ _ _ hre
      (by simp [TimeLockedDeposit.depositCheckError, hp, hv, hsup])
  intro hsup
  refine ⟨?_, ?_⟩
  · intro m hval
    exact deposit_of_checkError _ _ _ _ _ _ _ _ _ hre
      (by simp [TimeLockedDeposit.depositCheckError, hp, hv, hsup, hval])
  intro hval
  refine ⟨?_, ?_⟩
  · intro ha0
    exact deposit_of_checkError _ _ _ _ _ _ _ _ _ hre
      (by simp [TimeLockedDeposit.depositCheckError, hp, hv, hsup, hval, ha0])
  intro ha0
  refine ⟨?_, ?_⟩
  · intro hbig
    exact deposit_of_checkError _ _ _ _ _ _ _ _ _ hre
      (by simp [TimeLockedDeposit.depositCheckError, hp, hv, hsup, hval, ha0, hbig])
  intro hamax
  refine ⟨?_, ?_⟩
  · intro hd0
    exact deposit_of_checkError _ _ _ _ _ _ _ _ _ hre
      (by simp [TimeLockedDeposit.depositCheckError, hp, hv, hsup, hval, ha0,
        Nat.not_lt.2 hamax, hd0])
  intro hd0
  refine ⟨?_, ?_⟩
  · intro hdbig
    exact deposit_of_checkError _ _ _ _ _ _ _ _ _ hre
      (by simp [TimeLockedDeposit.depositCheckError, hp, hv, hsup, hval, ha0,
        Nat.not_lt.2 hamax, hd0, hdbig])
  intro hdmax
  refine ⟨?_, ?_⟩
  · intro m hma hm
    exact deposit_of_checkError _ _ _ _ _ _ _ _ _ hre
      (by simp [TimeLockedDeposit.depositCheckError, hp, hv, hsup, hval, ha0,
        Nat.not_lt.2 hamax, hd0, Nat.not_lt.2 hdmax, hma, hm])
  intro hma
  refine ⟨?_, ?_⟩
  · intro mu hmu hcount
    rcases hmaq : VMap.get st.deposit_limits.max_deposit_amounts tok with _ | m
    · exact deposit_of_checkError _ _ _ _ _ _ _ _ _ hre
        (by simp [TimeLockedDeposit.depositCheckError, hp, hv, hsup, hval, ha0,
          Nat.not_lt.2 hamax, hd0, Nat.not_lt.2 hdmax, hmaq, hmu, hcount])
    · have hmle := hma m hmaq
      exact deposit_of_checkError _ _ _ _ _ _ _ _ _ hre
        (by simp [TimeLockedDeposit.depositCheckError, hp, hv, hsup, hval, ha0,
          Nat.not_lt.2 hamax, hd0, Nat.not_lt.2 hdmax, hmaq, Nat.not_lt.2 hmle,
          hmu, hcount])
  intro hmu
  have limb :
      (match VMap.get st.deposit_limits.max_deposit_amounts tok with
        | some max_amount =>
            if amount > max_amount then
              some ContractError.DepositLimitExceeded else none
        | none => none) = (none : Option ContractError) := by
    rcases hmaq : VMap.get st.deposit_limits.max_deposit_amounts tok with _ | m
    · simp
    · simp [Nat.not_lt.2 (hma m hmaq)]
  have limu :
      (match st.deposit_limits.max_deposits_per_user with
        | some max_deposits =>
            if ((VMap.get st.user_deposit_ids caller).getD []).length ≥
                max_deposits then
              some ContractError.UserDepositLimitReached else none
        | none => none) = (none : Option ContractError) := by
    rcases hmuq : st.deposit_limits.max_deposits_per_user with _ | mu
    · simp
    · simp [Nat.not_le.2 (hmu mu hmuq)]
  refine ⟨?_, ?_⟩
  · intro mt hmt
    refine ⟨?_, ?_⟩
    · intro hof
      exact deposit_of_checkError _ _ _ _ _ _ _ _ _ hre
        (by simp [TimeLockedDeposit.depositCheckError, hp, hv, hsup, hval, ha0,
          Nat.not_lt.2 hamax, hd0, Nat.not_lt.2 hdmax, limb, limu, hmt,
          Nat.not_le.2 hof])
    · intro hle hexc
      exact deposit_of_checkError _ _ _ _ _ _ _ _ _ hre
        (by simp [TimeLockedDeposit.depositCheckError, hp, hv, hsup, hval, ha0,
          Nat.not_lt.2 hamax, hd0, Nat.not_lt.2 hdmax, limb, limu, hmt, hle,
          Nat.not_le.2 hexc])
  intro hmt
  have limt :
      (match st.deposit_limits.max_total_deposits with
        | some max_total =>
            if (VMap.get st.total_deposits tok).getD 0 + amount ≤ U64MAX then
              if (VMap.get st.total_deposits tok).getD 0 + amount ≤ max_total
                then none
              else some ContractError.TotalDepositLimitReached
            else some ContractError.ArithmeticError
        | none => none) = (none : Option ContractError) := by
    rcases hmtq : st.deposit_limits.max_total_deposits with _ | mt
    · simp
    · simp [(hmt mt hmtq).1, (hmt mt hmtq).2]
  refine ⟨?_, ?_⟩
  · intro b hb hlow
    exact deposit_of_checkError _ _ _ _ _ _ _ _ _ hre
      (by simp [TimeLockedDeposit.depositCheckError, hp, hv, hsup, hval, ha0,
        Nat.not_lt.2 hamax, hd0, Nat.not_lt.2 hdmax, limb, limu, limt, hb, hlow])
  · intro m hm
    exact deposit_of_checkError _ _ _ _ _ _ _ _ _ hre
      (by simp [TimeLockedDeposit.depositCheckError, hp, hv, hsup, hval, ha0,
        Nat.not_lt.2 hamax, hd0, Nat.not_lt.2 hdmax, limb, limu, limt, hm,
        ContractError.fromString])

/-- A second deposit owned by `"alice"`. -/
def dep2 : Deposit :=
  { dep1 with deposit_id := 2 }

/-- A concrete state where `"alice"` already has 2 deposits and the
per-user limit is 2. -/
def stLimit : TimeLockedDeposit :=
  { contract_owner_address := "owner"
    next_deposit_id := 3
    deposit_registry := [(1, dep1), (2, dep2)]
    user_deposit_ids := [("alice", [1, 2])]
    fee_config :=
      { emergency_withdrawal_fee_percentage := 10
        fee_collector_address := "owner"
        collected_fees := [] }
    is_contract_paused := false
    deposit_limits :=
      { max_deposit_amounts := []
        max_deposits_per_user := some 2
        max_total_deposits := none }
    pending_owner := none
    supported_tokens :=
      [TokenType.Bitcoin, TokenType.Ethereum, TokenType.Solana,
        TokenType.Rune "RUNE_DEFAULT_TOKEN"]
    total_deposits := [(TokenType.Bitcoin, 1000)]
    reentrancy_entered := false }

/-- C4 witness: with `max_deposits_per_user = 2` and two prior deposits,
a third deposit from the same user fails with `UserDepositLimitReached`,
every earlier check passing. -/
theorem deposit_first_failing_check_witness :
    TimeLockedDeposit.deposit ttOk stLimit 0 "alice" TokenType.Bitcoin
      100 30 none = (stLimit, Except.error ContractError.UserDepositLimitReached) :=
  ((((((((((deposit_first_failing_check ttOk stLimit 0 "alice"
      TokenType.Bitcoin 100 30 none rfl).2 rfl).2 rfl).2 (by decide)).2
      rfl).2 (by decide)).2 (by decide)).2 (by decide)).2 (by decide)).2
      (by intro m h; simp [VMap.get] at h)).1 2 rfl (by decide)

theorem depositCheckError_ne_paused (tt : TokenTransfer) (st : TimeLockedDeposit)
    (caller : String) (tok : TokenType) (amount days : Nat) (e : ContractError)
    (hp : st.is_contract_paused = false)
    (h : TimeLockedDeposit.depositCheckError tt st caller tok amount days = some e) :
    e ≠ ContractError.ContractPaused := by
  intro hcp
  subst hcp
  unfold TimeLockedDeposit.depositCheckError at h
  simp only [hp, Bool.false_eq_true, if_false, Option.none_orElse,
    Option.orElse_eq_some] at h
  repeat' rcases h with h | ⟨-, h⟩
  all_goals revert h
  all_goals try simp [ContractError.fromString]
  all_goals split <;> try simp [ContractError.fromString]
  all_goals split <;> simp

theorem deposit_preserves_paused (tt : TokenTransfer) (st : TimeLockedDeposit)
    (now : Int) (c : String) (tok : TokenType) (a d : Nat) (u : Option String) :
    (TimeLockedDeposit.deposit tt st now c tok a d u).1.is_contract_paused =
      st.is_contract_paused := by
  unfold TimeLockedDeposit.deposit
  repeat' split
  all_goals dsimp only
  all_goals repeat' split
  all_goals rfl

theorem withdraw_preserves_paused (tt : TokenTransfer) (st : TimeLockedDeposit)
    (now : Int) (c : String) (i : Nat) :
    (TimeLockedDeposit.withdraw tt st now c i).1.is_contract_paused =
      st.is_contract_paused := by
  unfold TimeLockedDeposit.withdraw
  repeat' split
  all_goals dsimp only
  all_goals repeat' split
  all_goals rfl

theorem emergency_preserves_paused (tt : TokenTransfer) (st : TimeLockedDeposit)
    (now : Int) (c : String) (i : Nat) :
    (TimeLockedDeposit.emergency_withdraw tt st now c i).1.is_contract_paused =
      st.is_contract_paused := by
  unfold TimeLockedDeposit.emergency_withdraw
  repeat' split
  all_goals dsimp only
  all_goals repeat' split
  all_goals rfl

theorem withdraw_fees_preserves_paused (tt : TokenTransfer)
    (st : TimeLockedDeposit) (now : Int) (c : String) (tok : TokenType) :
    (TimeLockedDeposit.withdraw_fees tt st now c tok).1.is_contract_paused =
      st.is_contract_paused := by
  unfold TimeLockedDeposit.withdraw_fees
  repeat' split
  all_goals dsimp only
  all_goals repeat' split
  all_goals rfl

theorem add_token_preserves_paused (tt : TokenTransfer)
    (st : TimeLockedDeposit) (c : String) (tok : TokenType) :
    (TimeLockedDeposit.add_supported_token tt st c tok).1.is_contract_paused =
      st.is_contract_paused := by
  unfold TimeLockedDeposit.add_supported_token
  repeat' split
  all_goals dsimp only
  all_goals repeat' split
  all_goals rfl

theorem remove_token_preserves_paused (st : TimeLockedDeposit) (c : String)
    (tok : TokenType) :
    (TimeLockedDeposit.remove_supported_token st c tok).1.is_contract_paused =
      st.is_contract_paused := by
  unfold TimeLockedDeposit.remove_supported_token
  repeat' split
  all_goals dsimp only
  all_goals repeat' split
  all_goals rfl

/-- The contract states reachable from the constructor through the public
operations (with arbitrary collaborators, clocks and arguments). -/
inductive Reachable : TimeLockedDeposit → Prop where
  | init (tt : TokenTransfer) (owner : String) (pct : Nat)
      (st : TimeLockedDeposit) :
      TimeLockedDeposit.new tt owner pct = Except.ok st → Reachable st
  | deposit_step (st : TimeLockedDeposit) (tt : TokenTransfer) (now : Int)
      (c : String) (tok : TokenType) (a d : Nat) (u : Option String) :
      Reachable st → Reachable (TimeLockedDeposit.deposit tt st now c tok a d u).1
  | withdraw_step (st : TimeLockedDeposit) (tt : TokenTransfer) (now : Int)
      (c : String) (i : Nat) :
      Reachable st → Reachable (TimeLockedDeposit.withdraw tt st now c i).1
  | emergency_step (st : TimeLockedDeposit) (tt : TokenTransfer) (now : Int)
      (c : String) (i : Nat) :
      Reachable st → Reachable (TimeLockedDeposit.emergency_withdraw tt st now c i).1
  | fees_step (st : TimeLockedDeposit) (tt : TokenTransfer) (now : Int)
      (c : String) (tok : TokenType) :
      Reachable st → Reachable (TimeLockedDeposit.withdraw_fees tt st now c tok).1
  | add_step (st : TimeLockedDeposit) (tt : TokenTransfer) (c : String)
      (tok : TokenType) :
      Reachable st → Reachable (TimeLockedDeposit.add_supported_token tt st c tok).1
  | remove_step (st : TimeLockedDeposit) (c : String) (tok : TokenType) :
      Reachable st → Reachable (TimeLockedDeposit.remove_supported_token st c tok).1

theorem reachable_not_paused (st : TimeLockedDeposit) (h : Reachable st) :
    st.is_contract_paused = false := by
  induction h with
  | init tt owner pct st hnew =>
      unfold TimeLockedDeposit.new at hnew
      split at hnew
      · cases hnew
      · split at hnew
        · cases hnew
        · split at hnew
          · cases hnew
          · cases hnew
            rfl
  | deposit_step st tt now c tok a d u _ ih =>
      rw [deposit_preserves_paused, ih]
  | withdraw_step st tt now c i _ ih =>
      rw [withdraw_preserves_paused, ih]
  | emergency_step st tt now c i _ ih =>
      rw [emergency_preserves_paused, ih]
  | fees_step st tt now c tok _ ih =>
      rw [withdraw_fees_preserves_paused, ih]
  | add_step st tt c tok _ ih =>
      rw [add_token_preserves_paused, ih]
  | remove_step st c tok _ ih =>
      rw [remove_token_preserves_paused, ih]

theorem deposit_ne_paused_error (tt : TokenTransfer) (st : TimeLockedDeposit)
    (now : Int) (c : String) (tok : TokenType) (a d : Nat) (u : Option String)
    (hp : st.is_contract_paused = false) :
    (TimeLockedDeposit.deposit tt st now c tok a d u).2 ≠
      Except.error ContractError.ContractPaused := by
  unfold TimeLockedDeposit.deposit
  split
  · simp
  · split
    · next e heq =>
        simpa using depositCheckError_ne_paused tt st c tok a d e hp heq
    · repeat' split
      all_goals dsimp only
      all_goals repeat' split
      all_goals simp [ContractError.fromString]

theorem withdraw_ne_paused_error (tt : TokenTransfer) (st : TimeLockedDeposit)
    (now : Int) (c : String) (i : Nat)
    (hp : st.is_contract_paused = false) :
    (TimeLockedDeposit.withdraw tt st now c i).2 ≠
      Except.error ContractError.ContractPaused := by
  unfold TimeLockedDeposit.withdraw
  simp only [hp, Bool.false_eq_true, if_false]
  repeat' split
  all_goals dsimp only
  all_goals repeat' split
  all_goals simp [ContractError.fromString]

theorem emergency_ne_paused_error (tt : TokenTransfer) (st : TimeLockedDeposit)
    (now : Int) (c : String) (i : Nat)
    (hp : st.is_contract_paused = false) :
    (TimeLockedDeposit.emergency_withdraw tt st now c i).2 ≠
      Except.error ContractError.ContractPaused := by
  unfold TimeLockedDeposit.emergency_withdraw
  simp only [hp, Bool.false_eq_true, if_false]
  repeat' split
  all_goals dsimp only
  all_goals repeat' split
  all_goals simp [ContractError.fromString]

theorem withdraw_fees_ne_paused_error (tt : TokenTransfer)
    (st : TimeLockedDeposit) (now : Int) (c : String) (tok : TokenType) :
    (TimeLockedDeposit.withdraw_fees tt st now c tok).2 ≠
      Except.error ContractError.ContractPaused := by
  unfold TimeLockedDeposit.withdraw_fees
  repeat' split
  all_goals dsimp only
  all_goals repeat' split
  all_goals simp [ContractError.fromString]

theorem add_token_ne_paused_error (tt : TokenTransfer)
    (st : TimeLockedDeposit) (c : String) (tok : TokenType) :
    (TimeLockedDeposit.add_supported_token tt st c tok).2 ≠
      Except.error ContractError.ContractPaused := by
  unfold TimeLockedDeposit.add_supported_token
  repeat' split
  all_goals simp

theorem remove_token_ne_paused_error (st : TimeLockedDeposit) (c : String)
    (tok : TokenType) :
    (TimeLockedDeposit.remove_supported_token st c tok).2 ≠
      Except.error ContractError.ContractPaused := by
  unfold TimeLockedDeposit.remove_supported_token
  repeat' split
  all_goals simp

/-- C9: in every contract state reachable from the constructor via the
public operations, the pause flag is `false` — no public operation sets
it — and consequently no public operation invoked on a reachable state
ever returns `ContractPaused`. -/
theorem reachable_never_contract_paused (st : TimeLockedDeposit)
    (h : Reachable st) :
    st.is_contract_paused = false ∧
    (∀ (tt : TokenTransfer) (now : Int) (c : String) (tok : TokenType)
        (a d : Nat) (u : Option String),
      (TimeLockedDeposit.deposit tt st now c tok a d u).2 ≠
        Except.error ContractError.ContractPaused) ∧
    (∀ (tt : TokenTransfer) (now : Int) (c : String) (i : Nat),
      (TimeLockedDeposit.withdraw tt st now c i).2 ≠
        Except.error ContractError.ContractPaused) ∧
    (∀ (tt : TokenTransfer) (now : Int) (c : String) (i : Nat),
      (TimeLockedDeposit.emergency_withdraw tt st now c i).2 ≠
        Except.error ContractError.ContractPaused) ∧
    (∀ (tt : TokenTransfer) (now : Int) (c : String) (tok : TokenType),
      (TimeLockedDeposit.withdraw_fees tt st now c tok).2 ≠
        Except.error ContractError.ContractPaused) ∧
    (∀ (tt : TokenTransfer) (c : String) (tok : TokenType),
      (TimeLockedDeposit.add_supported_token tt st c tok).2 ≠
        Except.error ContractError.ContractPaused) ∧
    (∀ (c : String) (tok : TokenType),
      (TimeLockedDeposit.remove_supported_token st c tok).2 ≠
        Except.error ContractError.ContractPaused) := by
  have hp := reachable_not_paused st h
  exact ⟨hp,
    fun tt now c tok a d u => deposit_ne_paused_error tt st now c tok a d u hp,
    fun tt now c i => withdraw_ne_paused_error tt st now c i hp,
    fun tt now c i => emergency_ne_paused_error tt st now c i hp,
    fun tt now c tok => withdraw_fees_ne_paused_error tt st now c tok,
    fun tt c tok => add_token_ne_paused_error tt st c tok,
    fun c tok => remove_token_ne_paused_error st c tok⟩

/-- The state `TimeLockedDeposit::new(ttOk, "owner", 10)` constructs. -/
def stInit : TimeLockedDeposit :=
  { contract_owner_address := "owner"
    next_deposit_id := 1
    deposit_registry := VMap.empty
    user_deposit_ids := VMap.empty
    fee_config :=
      { emergency_withdrawal_fee_percentage := 10
        fee_collector_address := "owner"
        collected_fees := VMap.empty }
    is_contract_paused := false
    deposit_limits := DepositLimits.default
    pending_owner := none
    supported_tokens :=
      [TokenType.Bitcoin, TokenType.Ethereum, TokenType.Solana,
        TokenType.Rune "RUNE_DEFAULT_TOKEN", TokenType.Ordinal ord0,
        TokenType.Lightning]
    total_deposits := VMap.empty
    reentrancy_entered := false }

/-- C9 witness: the freshly constructed state is unpaused and a `withdraw`
call on it cannot return `ContractPaused`. -/
theorem reachable_never_contract_paused_witness :
    stInit.is_contract_paused = false ∧
    (TimeLockedDeposit.withdraw ttOk stInit 0 "alice" 1).2 ≠
      Except.error ContractError.ContractPaused :=
  ⟨(reachable_never_contract_paused stInit
      (Reachable.init ttOk "owner" 10 stInit (by rfl))).1,
    (reachable_never_contract_paused stInit
      (Reachable.init ttOk "owner" 10 stInit (by rfl))).2.2.1 ttOk 0 "alice" 1⟩

/-- Modelled from the spec: the spec's stated fee estimate
`ceil(estimated_size_bytes * fee_rate_per_kilobyte / 1000)`, the result
rounded up to the next whole base unit, for comparison with the source's
`estimate_tx_fee`. -/
def estimate_tx_fee_specCeil (tx_size : Nat) (fee_rate : ℚ) : Nat :=
  Int.toNat ⌈(tx_size : ℚ) * fee_rate / 1000⌉

/-- C8 counterexample: at transaction size 250 bytes and fee rate 1 per
kilobyte the source's fee estimate truncates `0.25` to `0`, while the
spec's ceiling formula gives `1`. -/
theorem estimate_tx_fee_not_ceil :
    estimate_tx_fee 250 1 = 0 ∧ estimate_tx_fee_specCeil 250 1 = 1 ∧
    estimate_tx_fee 250 1 ≠ estimate_tx_fee_specCeil 250 1 := by
  have hfloor : estimate_tx_fee 250 1 = 0 := by
    norm_num [estimate_tx_fee, f64toU64, U64MAX]
  have hceil : estimate_tx_fee_specCeil 250 1 = 1 := by
    rw [estimate_tx_fee_specCeil,
      show ⌈((250 : Nat) : ℚ) * 1 / 1000⌉ = 1 from by rw [Int.ceil_eq_iff] <;> norm_num]
    rfl
  exact ⟨hfloor, hceil, by rw [hfloor, hceil]; decide⟩

/-- C8 amended: the fee estimate is `size * fee_rate / 1000` truncated
toward zero (the floor for nonnegative rates), saturating at the `u64`
range — not the ceiling — and the single-input coin-selection steps use
exactly this estimate at transaction size `input_size + 70`: an exact
match found by `select_exact_match` has amount equal to the target plus
`estimate_tx_fee (input_size + 70)`. -/
theorem estimate_tx_fee_floor_spec :
    (∀ (tx_size : Nat) (fee_rate : ℚ),
      estimate_tx_fee tx_size fee_rate =
        min (Int.toNat ⌊(tx_size : ℚ) * fee_rate / 1000⌋) U64MAX) ∧
    (∀ (s : UtxoSet) (amount : Nat) (fee_rate : ℚ) (sel : List Utxo) (ch : Nat),
      s.select_exact_match amount fee_rate = some (sel, ch) →
      ∃ u, u ∈ s.utxos ∧ sel = [u] ∧ ch = 0 ∧
        u.amount = amount +
          estimate_tx_fee (u.estimate_input_size + 70) fee_rate) := by
  constructor
  · intro tx_size fee_rate
    rfl
  · intro s amount fee_rate sel ch h
    unfold UtxoSet.select_exact_match at h
    split at h
    · next u hu =>
        cases h
        refine ⟨u, List.mem_of_find?_eq_some hu, rfl, rfl, ?_⟩
        have hbeq := List.find?_some hu
        simp only [beq_iff_eq] at hbeq
        simpa [estimate_tx_fee] using hbeq
    · cases h

/-- The spec's exact-match example: a single UTXO of amount 3000. -/
def u3000 : Utxo :=
  { txid := "aa", vout := 0, amount := 3000, confirmations := 6,
    script_pubkey := "pk", address := "addr", spendable := true }

/-- The set holding only `u3000`. -/
def set3000 : UtxoSet := { utxos := [u3000], total_amount := 3000 }

/-- C8 witness: selecting 3000 at fee rate 1 from `set3000` is an exact
match whose amount is the target plus the (truncated-to-zero) fee. -/
theorem estimate_tx_fee_floor_spec_witness :
    ∃ u, u ∈ set3000.utxos ∧ [u3000] = [u] ∧ (0 : Nat) = 0 ∧
      u.amount = 3000 + estimate_tx_fee (u.estimate_input_size + 70) 1 :=
  estimate_tx_fee_floor_spec.2 set3000 3000 1 [u3000] 0 (by
    norm_num [UtxoSet.select_exact_match, set3000, u3000, f64toU64, U64MAX,
      Utxo.estimate_input_size, List.find?])

/-- C1 counterexample: on `stOne` with a collaborator whose
`transfer_from_contract` fails, `withdraw` returns the collaborator error
but the ledger state is no longer the pre-call state — the deposit was
marked withdrawn before the transfer was requested
(`contract_core.rs:326-337`). -/
theorem withdraw_collaborator_failure_mutates :
    (TimeLockedDeposit.withdraw ttFailOut stOne 86400 "alice" 1).2 =
      Except.error (ContractError.BitcoinTestnetError "rpc down") ∧
    (TimeLockedDeposit.withdraw ttFailOut stOne 86400 "alice" 1).1 ≠ stOne := by
  constructor
  · decide
  · decide

/-- C1 amended: a collaborator failure surfaced as the wrapped
collaborator error leaves `deposit` with the ledger exactly unchanged (its
collaborator calls all precede any mutation), but in `withdraw` and
`emergency_withdraw` it leaves the deposit already marked withdrawn and
last-modified-stamped (totals and fees unchanged), and in `withdraw_fees`
it leaves the collected fee for the token already reset to zero: those
three operations mutate state before the transfer call. -/
theorem collaborator_failure_state :
    (∀ (tt : TokenTransfer) (st : TimeLockedDeposit) (now : Int) (c : String)
        (tok : TokenType) (a d : Nat) (u : Option String) (e : String)
        (x : TimeLockedDeposit),
      TimeLockedDeposit.deposit tt st now c tok a d u =
        (x, Except.error (ContractError.BitcoinTestnetError e)) → x = st) ∧
    (∀ (tt : TokenTransfer) (st : TimeLockedDeposit) (now : Int) (c : String)
        (i : Nat) (e : String) (x : TimeLockedDeposit),
      TimeLockedDeposit.withdraw tt st now c i =
        (x, Except.error (ContractError.BitcoinTestnetError e)) →
      x = { st with deposit_registry := (VMap.modify st.deposit_registry i
              (fun d => { d with is_withdrawn := true, last_modified := now })) }) ∧
    (∀ (tt : TokenTransfer) (st : TimeLockedDeposit) (now : Int) (c : String)
        (i : Nat) (e : String) (x : TimeLockedDeposit),
      TimeLockedDeposit.emergency_withdraw tt st now c i =
        (x, Except.error (ContractError.BitcoinTestnetError e)) →
      x = { st with deposit_registry := (VMap.modify st.deposit_registry i
              (fun d => { d with is_withdrawn := true, last_modified := now })) }) ∧
    (∀ (tt : TokenTransfer) (st : TimeLockedDeposit) (now : Int) (c : String)
        (tok : TokenType) (e : String) (x : TimeLockedDeposit),
      TimeLockedDeposit.withdraw_fees tt st now c tok =
        (x, Except.error (ContractError.BitcoinTestnetError e)) →
      x = { st with fee_config := { st.fee_config with
              collected_fees := (VMap.modify st.fee_config.collected_fees tok
                (fun _ => 0)) } }) := by
  refine ⟨?_, ?_, ?_, ?_⟩
  · intro tt st now c tok a d u e x h
    unfold TimeLockedDeposit.deposit at h
    repeat' split at h
    all_goals try dsimp only at h
    all_goals repeat' split at h
    all_goals cases h
    all_goals rfl
  · intro tt st now c i e x h
    unfold TimeLockedDeposit.withdraw at h
    repeat' split at h
    all_goals try dsimp only at h
    all_goals repeat' split at h
    all_goals cases h
    all_goals rfl
  · intro tt st now c i e x h
    unfold TimeLockedDeposit.emergency_withdraw at h
    repeat' split at h
    all_goals try dsimp only at h
    all_goals repeat' split at h
    all_goals cases h
    all_goals rfl
  · intro tt st now c tok e x h
    unfold TimeLockedDeposit.withdraw_fees at h
    repeat' split at h
    all_goals try dsimp only at h
    all_goals repeat' split at h
    all_goals cases h
    all_goals rfl

/-- C1 witness: the concrete failing `withdraw` of the counterexample
lands in exactly the post-state the amended statement describes — the
registry entry marked withdrawn, everything else untouched. -/
theorem collaborator_failure_state_witness :
    (TimeLockedDeposit.withdraw ttFailOut stOne 86400 "alice" 1).1 =
      { stOne with deposit_registry := (VMap.modify stOne.deposit_registry 1
          (fun d => { d with is_withdrawn := true, last_modified := 86400 })) } :=
  collaborator_failure_state.2.1 ttFailOut stOne 86400 "alice" 1 "rpc down"
    (TimeLockedDeposit.withdraw ttFailOut stOne 86400 "alice" 1).1 (by decide)

/-- The amount a deposit contributes to the aggregate total of token
`tok`: its amount when it has that token type and is not withdrawn. -/
def activeAmount (dep : Deposit) (tok : TokenType) : Nat :=
  if dep.deposited_token_type = tok ∧ dep.is_withdrawn = false then
    dep.deposited_amount
  else 0

/-- Sum of `deposited_amount` over the registry's deposits with token type
`tok` and `is_withdrawn = false` (§3 aggregate invariant 1, left side). -/
def sumActive (reg : VMap Nat Deposit) (tok : TokenType) : Nat :=
  ((reg.filter fun p =>
      decide (p.2.deposited_token_type = tok) && !p.2.is_withdrawn).map
    fun p => p.2.deposited_amount).sum

/-- §3 aggregate invariant 1: for every token type, the sum of active
deposit amounts equals the stored per-token total (absent meaning 0). -/
def invariant1 (st : TimeLockedDeposit) : Prop :=
  ∀ tok, sumActive st.deposit_registry tok =
    (VMap.get st.total_deposits tok).getD 0

theorem sumActive_cons (p : Nat × Deposit) (ps : VMap Nat Deposit)
    (tok : TokenType) :
    sumActive (p :: ps) tok = activeAmount p.2 tok + sumActive ps tok := by
  by_cases hc : p.2.deposited_token_type = tok ∧ p.2.is_withdrawn = false
  · simp [sumActive, activeAmount, List.filter, hc, hc.1, hc.2]
  · have : ¬ (decide (p.2.deposited_token_type = tok) && !p.2.is_withdrawn) = true := by
      simp only [Bool.and_eq_true, decide_eq_true_eq, Bool.not_eq_eq_eq_not,
        Bool.not_true]
      intro hcon
      exact hc ⟨hcon.1, hcon.2⟩
    simp [sumActive, activeAmount, List.filter, this, hc]

theorem sumActive_insert_fresh (reg : VMap Nat Deposit) (id : Nat)
    (dep : Deposit) (tok : TokenType) (hfresh : VMap.get reg id = none) :
    sumActive (VMap.insert reg id dep) tok =
      sumActive reg tok + activeAmount dep tok := by
  induction reg with
  | nil =>
      show sumActive [(id, dep)] tok = sumActive [] tok + activeAmount dep tok
      rw [sumActive_cons]
      simp [sumActive, Nat.add_comm]
  | cons p ps ih =>
      have hne : ¬ p.1 = id := by
        intro he
        simp [VMap.get, he] at hfresh
      have hrest : VMap.get ps id = none := by
        simpa [VMap.get, hne] using hfresh
      simp only [VMap.insert, hne, if_false, sumActive_cons, ih hrest]
      omega

theorem sumActive_modify_withdraw (reg : VMap Nat Deposit) (id : Nat)
    (dep : Deposit) (tok : TokenType) (now : Int)
    (hget : VMap.get reg id = some dep) :
    sumActive reg tok =
      sumActive (VMap.modify reg id
        (fun d => { d with is_withdrawn := true, last_modified := now })) tok +
      activeAmount dep tok := by
  induction reg with
  | nil => cases hget
  | cons p ps ih =>
      by_cases he : p.1 = id
      · have hdep : p.2 = dep := by
          simpa [VMap.get, he] using hget
        subst hdep
        simp only [VMap.modify, he, if_true, sumActive_cons]
        have hzero : activeAmount
            { p.2 with is_withdrawn := true, last_modified := now } tok = 0 := by
          simp [activeAmount]
        rw [hzero]
        omega
      · have hrest : VMap.get ps id = some dep := by
          simpa [VMap.get, he] using hget
        simp only [VMap.modify, he, if_false, sumActive_cons, ih hrest]
        omega

theorem invariant1_of_eq (st st' : TimeLockedDeposit)
    (h1 : st'.deposit_registry = st.deposit_registry)
    (h2 : st'.total_deposits = st.total_deposits)
    (h : invariant1 st) : invariant1 st' := by
  intro tok
  rw [h1, h2]
  exact h tok

theorem inv_after_insert (reg : VMap Nat Deposit) (totals : VMap TokenType Nat)
    (id : Nat) (dep : Deposit) (tok : TokenType) (a : Nat)
    (hfresh : VMap.get reg id = none)
    (htok : dep.deposited_token_type = tok)
    (hwd : dep.is_withdrawn = false)
    (hamt : dep.deposited_amount = a)
    (hinv : ∀ t, sumActive reg t = (VMap.get totals t).getD 0) :
    ∀ t, sumActive (VMap.insert reg id dep) t =
      (VMap.get (VMap.insert totals tok
        ((VMap.get totals tok).getD 0 + a)) t).getD 0 := by
  subst hamt
  intro t
  rw [sumActive_insert_fresh _ _ _ _ hfresh, VMap.get_insert]
  by_cases hc : tok = t
  · subst hc
    simp [activeAmount, htok, hwd, hinv tok]
  · have hne : ¬ dep.deposited_token_type = t := fun he => hc (htok ▸ he)
    simp [activeAmount, hc, hne, hinv t]

theorem inv_after_mark (reg : VMap Nat Deposit) (totals : VMap TokenType Nat)
    (i : Nat) (dep : Deposit) (now : Int)
    (hget : VMap.get reg i = some dep)
    (hw : ¬ dep.is_withdrawn = true)
    (hinv : ∀ t, sumActive reg t = (VMap.get totals t).getD 0) :
    ∀ t, sumActive (VMap.modify reg i
        (fun d => { d with is_withdrawn := true, last_modified := now })) t =
      (VMap.get (VMap.modify totals dep.deposited_token_type
        (fun total => total - dep.deposited_amount)) t).getD 0 := by
  intro t
  have hwf : dep.is_withdrawn = false := by
    cases hb : dep.is_withdrawn
    · rfl
    · exact absurd hb hw
  have hS := sumActive_modify_withdraw reg i dep t now hget
  rw [VMap.get_modify]
  by_cases hc : dep.deposited_token_type = t
  · rw [if_pos hc, hc]
    have hact : activeAmount dep t = dep.deposited_amount := by
      simp [activeAmount, hc, hwf]
    rw [hact] at hS
    have hEq := hinv t
    rcases hv : VMap.get totals t with _ | v
    · rw [hv] at hEq
      simp only [Option.getD_none] at hEq
      simp only [Option.map_none', Option.getD_none]
      omega
    · rw [hv] at hEq
      simp only [Option.getD_some] at hEq
      simp only [Option.map_some', Option.getD_some]
      omega
  · rw [if_neg hc]
    have hact : activeAmount dep t = 0 := by
      simp [activeAmount, hc]
    rw [hact] at hS
    rw [← hinv t]
    omega

/-- C2 amended: every *successful* operation preserves aggregate
invariant 1 (for states whose next id is fresh, as in all reachable
states); a failed operation need not leave the state unchanged — a
collaborator transfer failure inside `withdraw` marks the deposit
withdrawn without updating the per-token total, breaking the equality
(see the counterexample). -/
theorem invariant1_preserved :
    (∀ (tt : TokenTransfer) (st : TimeLockedDeposit) (now : Int) (c : String)
        (tok : TokenType) (a d : Nat) (u : Option String) (ev : Event)
        (x : TimeLockedDeposit),
      VMap.get st.deposit_registry st.next_deposit_id = none →
      invariant1 st →
      TimeLockedDeposit.deposit tt st now c tok a d u = (x, Except.ok ev) →
      invariant1 x) ∧
    (∀ (tt : TokenTransfer) (st : TimeLockedDeposit) (now : Int) (c : String)
        (i : Nat) (ev : Event) (x : TimeLockedDeposit),
      invariant1 st →
      TimeLockedDeposit.withdraw tt st now c i = (x, Except.ok ev) →
      invariant1 x) ∧
    (∀ (tt : TokenTransfer) (st : TimeLockedDeposit) (now : Int) (c : String)
        (i : Nat) (ev : Event) (x : TimeLockedDeposit),
      invariant1 st →
      TimeLockedDeposit.emergency_withdraw tt st now c i = (x, Except.ok ev) →
      invariant1 x) ∧
    (∀ (tt : TokenTransfer) (st : TimeLockedDeposit) (now : Int) (c : String)
        (tok : TokenType) (ev : Event) (x : TimeLockedDeposit),
      invariant1 st →
      TimeLockedDeposit.withdraw_fees tt st now c tok = (x, Except.ok ev) →
      invariant1 x) ∧
    (∀ (tt : TokenTransfer) (st : TimeLockedDeposit) (c : String)
        (tok : TokenType) (r : Unit) (x : TimeLockedDeposit),
      invariant1 st →
      TimeLockedDeposit.add_supported_token tt st c tok = (x, Except.ok r) →
      invariant1 x) ∧
    (∀ (st : TimeLockedDeposit) (c : String) (tok : TokenType) (r : Unit)
        (x : TimeLockedDeposit),
      invariant1 st →
      TimeLockedDeposit.remove_supported_token st c tok = (x, Except.ok r) →
      invariant1 x) := by
  refine ⟨?_, ?_, ?_, ?_, ?_, ?_⟩
  · intro tt st now c tok a d u ev x hfresh hinv h
    unfold TimeLockedDeposit.deposit at h
    repeat' split at h
    all_goals try dsimp only at h
    all_goals repeat' split at h
    all_goals cases h
    all_goals intro t
    all_goals dsimp only
    all_goals exact inv_after_insert _ _ _ _ _ _ hfresh rfl rfl rfl hinv t
  · intro tt st now c i ev x hinv h
    unfold TimeLockedDeposit.withdraw at h
    repeat' split at h
    all_goals try dsimp only at h
    all_goals repeat' split at h
    all_goals cases h
    all_goals intro t
    all_goals dsimp only
    all_goals exact inv_after_mark _ _ _ _ _ (by assumption) (by assumption) hinv t
  · intro tt st now c i ev x hinv h
    unfold TimeLockedDeposit.emergency_withdraw at h
    repeat' split at h
    all_goals try dsimp only at h
    all_goals repeat' split at h
    all_goals cases h
    all_goals intro t
    all_goals dsimp only
    all_goals exact inv_after_mark _ _ _ _ _ (by assumption) (by assumption) hinv t
  · intro tt st now c tok ev x hinv h
    unfold TimeLockedDeposit.withdraw_fees at h
    repeat' split at h
    all_goals try dsimp only at h
    all_goals repeat' split at h
    all_goals cases h
    all_goals exact invariant1_of_eq st _ rfl rfl hinv
  · intro tt st c tok r x hinv h
    unfold TimeLockedDeposit.add_supported_token at h
    repeat' split at h
    all_goals cases h
    all_goals exact invariant1_of_eq st _ rfl rfl hinv
  · intro st c tok r x hinv h
    unfold TimeLockedDeposit.remove_supported_token at h
    repeat' split at h
    all_goals cases h
    all_goals exact invariant1_of_eq st _ rfl rfl hinv

/-- C2 counterexample: `stOne` satisfies aggregate invariant 1, the
`withdraw` whose collaborator transfer fails returns an error, and the
resulting state violates the invariant (the deposit is marked withdrawn
but the Bitcoin total still records 500). -/
theorem invariant1_broken_by_failed_withdraw :
    invariant1 stOne ∧
    (TimeLockedDeposit.withdraw ttFailOut stOne 86400 "alice" 1).2 =
      Except.error (ContractError.BitcoinTestnetError "rpc down") ∧
    ¬ invariant1 (TimeLockedDeposit.withdraw ttFailOut stOne 86400 "alice" 1).1 := by
  refine ⟨?_, by decide, ?_⟩
  · intro tok
    by_cases h : TokenType.Bitcoin = tok
    · subst h
      decide
    · simp [sumActive, VMap.get, stOne, dep1, h]
  · intro hinv
    have hbit := hinv TokenType.Bitcoin
    revert hbit
    decide

/-- C2 witness: a successful deposit of 100 on the fresh state lands in a
state that still satisfies invariant 1. -/
theorem invariant1_preserved_witness :
    invariant1 (TimeLockedDeposit.deposit ttOk stInit 0 "alice"
      TokenType.Bitcoin 100 30 none).1 :=
  invariant1_preserved.1 ttOk stInit 0 "alice" TokenType.Bitcoin 100 30 none
    (Event.Deposited 1 "alice" TokenType.Bitcoin 100 2592000 none none 0)
    (TimeLockedDeposit.deposit ttOk stInit 0 "alice"
      TokenType.Bitcoin 100 30 none).1
    (by decide) (fun _ => rfl) (by decide)

/-- One update of the branch-and-bound best pair: replace it when the
candidate has strictly smaller waste (`waste < *best_waste`). -/
def bnbStep (best : Option (List Utxo) × Nat) (c : List Utxo × Nat) :
    Option (List Utxo) × Nat :=
  if c.2 < best.2 then (some c.1, c.2) else best

theorem bnbSearch_eq_foldl (utxos : List Utxo) (target : Nat) :
    ∀ (n current_sum : Nat) (sel : List Utxo)
      (best : Option (List Utxo) × Nat) (index : Nat),
      utxos.length - index ≤ n →
      bnbSearch utxos target current_sum sel best index =
        List.foldl bnbStep best (bnbCandidates utxos target current_sum sel index) := by
  intro n
  induction n with
  | zero =>
      intro s sel best i hle
      unfold bnbSearch bnbCandidates
      by_cases hs : s ≥ target
      · simp [hs, List.foldl, bnbStep]
      · have hni : ¬ i < utxos.length := by omega
        simp [hs, hni, List.foldl]
  | succ n ih =>
      intro s sel best i hle
      unfold bnbSearch bnbCandidates
      by_cases hs : s ≥ target
      · simp [hs, List.foldl, bnbStep]
      · by_cases hi : i < utxos.length
        · have hm : utxos.length - (i + 1) ≤ n := by omega
          simp only [hs, hi, if_false, if_true, dif_pos, List.foldl_append]
          rw [ih _ _ _ _ hm, ih _ _ _ _ hm]
        · simp [hs, hi, List.foldl]

theorem foldl_bnbStep_first_min (cands : List (List Utxo × Nat)) :
    ∀ (acc : Option (List Utxo) × Nat),
      (List.foldl bnbStep acc cands = acc ∧ ∀ c ∈ cands, acc.2 ≤ c.2) ∨
      (∃ l₁ c l₂, cands = l₁ ++ c :: l₂ ∧
        List.foldl bnbStep acc cands = (some c.1, c.2) ∧ c.2 < acc.2 ∧
        (∀ c' ∈ l₁, c.2 < c'.2) ∧ (∀ c' ∈ l₂, c.2 ≤ c'.2)) := by
  induction cands with
  | nil =>
      intro acc
      left
      simp [List.foldl]
  | cons c cs ih =>
      intro acc
      by_cases hc : c.2 < acc.2
      · rcases ih (some c.1, c.2) with ⟨heq, hall⟩ | ⟨l₁, c', l₂, hsplit, heq, hlt, h₁, h₂⟩
        · right
          refine ⟨[], c, cs, by simp, ?_, hc, by simp, ?_⟩
          · simp only [List.foldl, bnbStep, if_pos hc]
            exact heq
          · intro c' hc'
            exact hall c' hc'
        · right
          refine ⟨c :: l₁, c', l₂, by simp [hsplit], ?_, ?_, ?_, h₂⟩
          · simp only [List.foldl, bnbStep, if_pos hc]
            exact heq
          · exact lt_trans hlt hc
          · intro c'' hc''
            rcases List.mem_cons.mp hc'' with h | h
            · subst h
              exact hlt
            · exact h₁ c'' h
      · rcases ih acc with ⟨heq, hall⟩ | ⟨l₁, c', l₂, hsplit, heq, hlt, h₁, h₂⟩
        · left
          constructor
          · simp only [List.foldl, bnbStep, if_neg hc]
            exact heq
          · intro c' hc'
            rcases List.mem_cons.mp hc' with h | h
            · subst h
              exact Nat.not_lt.mp hc
            · exact hall c' h
        · right
          refine ⟨c :: l₁, c', l₂, by simp [hsplit], ?_, hlt, ?_, h₂⟩
          · simp only [List.foldl, bnbStep, if_neg hc]
            exact heq
          · intro c'' hc''
            rcases List.mem_cons.mp hc'' with h | h
            · subst h
              exact lt_of_lt_of_le hlt (Nat.not_lt.mp hc)
            · exact h₁ c'' h

theorem bnbCandidates_sum (utxos : List Utxo) (target : Nat) :
    ∀ (n s : Nat) (sel : List Utxo) (i : Nat),
      utxos.length - i ≤ n →
      s = (sel.map Utxo.amount).sum →
      ∀ c ∈ bnbCandidates utxos target s sel i,
        target ≤ (c.1.map Utxo.amount).sum ∧
        c.2 = (c.1.map Utxo.amount).sum - target := by
  intro n
  induction n with
  | zero =>
      intro s sel i hle hsum c hc
      unfold bnbCandidates at hc
      by_cases hs : s ≥ target
      · simp only [hs, if_pos, List.mem_singleton] at hc
        subst hc
        subst hsum
        exact ⟨hs, rfl⟩
      · have hni : ¬ i < utxos.length := by omega
        simp [hs, hni] at hc
  | succ n ih =>
      intro s sel i hle hsum c hc
      unfold bnbCandidates at hc
      by_cases hs : s ≥ target
      · simp only [hs, if_pos, List.mem_singleton] at hc
        subst hc
        subst hsum
        exact ⟨hs, rfl⟩
      · by_cases hi : i < utxos.length
        · have hm : utxos.length - (i + 1) ≤ n := by omega
          simp only [hs, hi, if_false, dif_pos, List.mem_append] at hc
          rcases hc with hc | hc
          · exact ih _ _ _ hm (by simp [hsum]) c hc
          · exact ih _ _ _ hm hsum c hc
        · simp [hs, hi] at hc

theorem insertByAmountDesc_perm (u : Utxo) (l : List Utxo) :
    (insertByAmountDesc u l).Perm (u :: l) := by
  induction l with
  | nil => exact List.Perm.refl _
  | cons v vs ih =>
      unfold insertByAmountDesc
      by_cases h : u.amount ≥ v.amount
      · simp [h]
      · simp only [h, if_false]
        exact (ih.cons v).trans (List.Perm.swap u v vs)

theorem sortByAmountDesc_perm (l : List Utxo) : (sortByAmountDesc l).Perm l := by
  induction l with
  | nil => exact List.Perm.refl _
  | cons u us ih =>
      exact (insertByAmountDesc_perm u (sortByAmountDesc us)).trans (ih.cons u)

theorem insertByAmountDesc_sorted (u : Utxo) (l : List Utxo)
    (h : l.Pairwise (fun a b => b.amount ≤ a.amount)) :
    (insertByAmountDesc u l).Pairwise (fun a b => b.amount ≤ a.amount) := by
  induction l with
  | nil => simp [insertByAmountDesc]
  | cons v vs ih =>
      rcases List.pairwise_cons.mp h with ⟨hv, hvs⟩
      unfold insertByAmountDesc
      by_cases hc : u.amount ≥ v.amount
      · simp only [hc, if_true]
        refine List.Pairwise.cons ?_ h
        intro b hb
        rcases List.mem_cons.mp hb with hbv | hb
        · subst hbv
          exact hc
        · exact le_trans (hv b hb) hc
      · simp only [hc, if_false]
        refine List.Pairwise.cons ?_ (ih hvs)
        intro b hb
        have hmem := (insertByAmountDesc_perm u vs).mem_iff.mp hb
        rcases List.mem_cons.mp hmem with hbu | hbv
        · subst hbu
          exact le_of_lt (Nat.lt_of_not_le hc)
        · exact hv b hbv

theorem sortByAmountDesc_sorted (l : List Utxo) :
    (sortByAmountDesc l).Pairwise (fun a b => b.amount ≤ a.amount) := by
  induction l with
  | nil => simp [sortByAmountDesc]
  | cons u us ih => exact insertByAmountDesc_sorted u (sortByAmountDesc us) ih

/-- C5: whenever `select_branch_and_bound` returns a selection for target
`amount`, the traversal ran over the entries stably sorted by amount
descending; the returned subset is a visited candidate (sum ≥ target) of
globally minimal waste, and the first visited one achieving it
(include-before-exclude order, strictly smaller than every earlier
candidate's waste); and the selection passed the refined fee check — its
sum strictly exceeds `amount` plus the fee recomputed from the actual
input count — with change `sum - amount - fee`.  Each candidate list
entry carries its waste `sum - amount`. -/
theorem select_branch_and_bound_spec (s : UtxoSet) (amount : Nat)
    (fee_rate : ℚ) (sel : List Utxo) (change : Nat)
    (h : s.select_branch_and_bound amount fee_rate = some (sel, change)) :
    (sortByAmountDesc s.utxos).Perm s.utxos ∧
    (sortByAmountDesc s.utxos).Pairwise (fun a b => b.amount ≤ a.amount) ∧
    ∃ w l₁ l₂,
      bnbCandidates (sortByAmountDesc s.utxos) amount 0 [] 0 =
        l₁ ++ (sel, w) :: l₂ ∧
      (∀ c ∈ l₁, w < c.2) ∧
      (∀ c ∈ bnbCandidates (sortByAmountDesc s.utxos) amount 0 [] 0,
        w ≤ c.2) ∧
      (sel.map Utxo.amount).sum = amount + w ∧
      amount + estimate_tx_fee ((sel.map Utxo.estimate_input_size).sum + 70)
          fee_rate < (sel.map Utxo.amount).sum ∧
      change = (sel.map Utxo.amount).sum - amount -
        estimate_tx_fee ((sel.map Utxo.estimate_input_size).sum + 70)
          fee_rate := by
  refine ⟨sortByAmountDesc_perm s.utxos, sortByAmountDesc_sorted s.utxos, ?_⟩
  unfold UtxoSet.select_branch_and_bound at h
  dsimp only at h
  rcases hr : bnbSearch (sortByAmountDesc s.utxos) amount 0 [] (none, U64MAX) 0
    with ⟨osel, w0⟩
  rw [hr] at h
  rcases osel with _ | selection
  · simp at h
  · dsimp only at h
    split at h
    · next hgt =>
        cases h
        have hfold := bnbSearch_eq_foldl (sortByAmountDesc s.utxos) amount
          (sortByAmountDesc s.utxos).length 0 [] (none, U64MAX) 0 (by omega)
        rw [hr] at hfold
        rcases foldl_bnbStep_first_min
            (bnbCandidates (sortByAmountDesc s.utxos) amount 0 [] 0)
            (none, U64MAX)
          with ⟨heq, _⟩ | ⟨l₁, c, l₂, hsplit, heq, hlt, h₁, h₂⟩
        · rw [heq] at hfold
          cases hfold
        · rw [heq] at hfold
          have hsel : sel = c.1 := by
            have := congrArg Prod.fst hfold
            simpa using this
          have hw : w0 = c.2 := congrArg Prod.snd hfold
          subst hsel
          have hcmem : c ∈ bnbCandidates (sortByAmountDesc s.utxos) amount 0 [] 0 := by
            rw [hsplit]
            exact List.mem_append.mpr (Or.inr (List.mem_cons_self c _))
          have hsum := bnbCandidates_sum (sortByAmountDesc s.utxos) amount
            (sortByAmountDesc s.utxos).length 0 [] 0 (by omega) (by simp) c hcmem
          refine ⟨c.2, l₁, l₂, by simpa using hsplit, h₁, ?_, ?_, ?_, rfl⟩
          · intro c' hc'
            rw [hsplit] at hc'
            rcases List.mem_append.mp hc' with hc' | hc'
            · exact le_of_lt (h₁ c' hc')
            · rcases List.mem_cons.mp hc' with hc' | hc'
              · subst hc'
                exact le_refl _
              · exact h₂ c' hc'
          · omega
          · exact hgt
    · cases h

/-- A single 1100-unit UTXO, picked up by branch-and-bound for target
1000. -/
def uBig : Utxo :=
  { txid := "a", vout := 0, amount := 1100, confirmations := 1,
    script_pubkey := "p", address := "x", spendable := true }

/-- The set holding only `uBig`. -/
def setBig : UtxoSet := { utxos := [uBig], total_amount := 1100 }

theorem bnb_concrete :
    setBig.select_branch_and_bound 1000 0 = some ([uBig], 100) := by
  have hamt : uBig.amount = 1100 := rfl
  have hL : bnbSearch [uBig] 1000 1100 [uBig]
      ((none : Option (List Utxo)), U64MAX) 1 = (some [uBig], 100) := by
    unfold bnbSearch
    norm_num [U64MAX]
  have hR : bnbSearch [uBig] 1000 0 []
      (some [uBig], 100) 1 = (some [uBig], 100) := by
    unfold bnbSearch
    norm_num
  have hT : bnbSearch [uBig] 1000 0 []
      ((none : Option (List Utxo)), U64MAX) 0 = (some [uBig], 100) := by
    unfold bnbSearch
    norm_num [hamt, hL, hR]
  unfold UtxoSet.select_branch_and_bound
  simp only [setBig, sortByAmountDesc, insertByAmountDesc, List.foldr]
  rw [hT]
  norm_num [hamt, Utxo.estimate_input_size, f64toU64, U64MAX]

/-- C5 witness: for the concrete set `setBig` and target 1000 at fee rate
0, branch-and-bound returns `[uBig]` with change 100, and the returned
selection satisfies the visited-candidates minimal-waste and
fee-recheck properties. -/
theorem select_branch_and_bound_spec_witness :
    (sortByAmountDesc setBig.utxos).Perm setBig.utxos ∧
    (sortByAmountDesc setBig.utxos).Pairwise (fun a b => b.amount ≤ a.amount) ∧
    ∃ w l₁ l₂,
      bnbCandidates (sortByAmountDesc setBig.utxos) 1000 0 [] 0 =
        l₁ ++ ([uBig], w) :: l₂ ∧
      (∀ c ∈ l₁, w < c.2) ∧
      (∀ c ∈ bnbCandidates (sortByAmountDesc setBig.utxos) 1000 0 [] 0,
        w ≤ c.2) ∧
      (List.map Utxo.amount [uBig]).sum = 1000 + w ∧
      1000 + estimate_tx_fee
          ((List.map Utxo.estimate_input_size [uBig]).sum + 70) 0 <
        (List.map Utxo.amount [uBig]).sum ∧
      (100 : Nat) = (List.map Utxo.amount [uBig]).sum - 1000 -
        estimate_tx_fee
          ((List.map Utxo.estimate_input_size [uBig]).sum + 70) 0 :=
  select_branch_and_bound_spec setBig 1000 0 [uBig] 100 bnb_concrete

/-- Two UTXOs that agree on everything except the `spendable` flag and the
confirmation count. -/
def uEquiv (u v : Utxo) : Prop :=
  u.txid = v.txid ∧ u.vout = v.vout ∧ u.amount = v.amount ∧
  u.script_pubkey = v.script_pubkey ∧ u.address = v.address

theorem uEquiv.amount_eq {u v : Utxo} (h : uEquiv u v) : u.amount = v.amount :=
  h.2.2.1

theorem uEquiv.reference_eq {u v : Utxo} (h : uEquiv u v) :
    u.reference = v.reference := by
  unfold Utxo.reference
  rw [h.1, h.2.1]

theorem sumAmount_congr {l l' : List Utxo} (h : List.Forall₂ uEquiv l l') :
    (l.map Utxo.amount).sum = (l'.map Utxo.amount).sum := by
  induction h with
  | nil => rfl
  | cons h1 _ ih => simp [h1.amount_eq, ih]

theorem sumSize_congr {l l' : List Utxo} (h : List.Forall₂ uEquiv l l') :
    (l.map Utxo.estimate_input_size).sum =
      (l'.map Utxo.estimate_input_size).sum := by
  induction h with
  | nil => rfl
  | cons _ _ ih => simp [Utxo.estimate_input_size, ih]

theorem mapRef_congr {l l' : List Utxo} (h : List.Forall₂ uEquiv l l') :
    l.map Utxo.reference = l'.map Utxo.reference := by
  induction h with
  | nil => rfl
  | cons h1 _ ih => simp [h1.reference_eq, ih]

/-- Equivalence of optional found entries. -/
def oEquiv : Option Utxo → Option Utxo → Prop
  | some u, some v => uEquiv u v
  | none, none => True
  | _, _ => False

theorem find?_congr (p : Utxo → Bool) (hp : ∀ u v, uEquiv u v → p u = p v) :
    ∀ {l l' : List Utxo}, List.Forall₂ uEquiv l l' →
      oEquiv (l.find? p) (l'.find? p) := by
  intro l l' h
  induction h with
  | nil => trivial
  | cons h1 h2 ih =>
      rename_i a b as bs
      rcases hpa : p a with _ | _
      · have hpb : p b = false := by rw [← hp a b h1, hpa]
        simpa [List.find?, hpa, hpb] using ih
      · have hpb : p b = true := by rw [← hp a b h1, hpa]
        simpa [List.find?, hpa, hpb] using h1

theorem insertByAmountDesc_congr {u v : Utxo} (huv : uEquiv u v) :
    ∀ {l l' : List Utxo}, List.Forall₂ uEquiv l l' →
      List.Forall₂ uEquiv (insertByAmountDesc u l) (insertByAmountDesc v l') := by
  intro l l' h
  induction h with
  | nil => exact List.Forall₂.cons huv List.Forall₂.nil
  | cons h1 h2 ih =>
      rename_i a b as bs
      unfold insertByAmountDesc
      rw [huv.amount_eq, h1.amount_eq]
      by_cases hc : v.amount ≥ b.amount
      · simp only [hc, if_true]
        exact List.Forall₂.cons huv (List.Forall₂.cons h1 h2)
      · simp only [hc, if_false]
        exact List.Forall₂.cons h1 ih

theorem sortByAmountDesc_congr {l l' : List Utxo}
    (h : List.Forall₂ uEquiv l l') :
    List.Forall₂ uEquiv (sortByAmountDesc l) (sortByAmountDesc l') := by
  induction h with
  | nil => exact List.Forall₂.nil
  | cons h1 _ ih => exact insertByAmountDesc_congr h1 ih

theorem insertByAmountAsc_congr {u v : Utxo} (huv : uEquiv u v) :
    ∀ {l l' : List Utxo}, List.Forall₂ uEquiv l l' →
      List.Forall₂ uEquiv (insertByAmountAsc u l) (insertByAmountAsc v l') := by
  intro l l' h
  induction h with
  | nil => exact List.Forall₂.cons huv List.Forall₂.nil
  | cons h1 h2 ih =>
      rename_i a b as bs
      unfold insertByAmountAsc
      rw [huv.amount_eq, h1.amount_eq]
      by_cases hc : v.amount ≤ b.amount
      · simp only [hc, if_true]
        exact List.Forall₂.cons huv (List.Forall₂.cons h1 h2)
      · simp only [hc, if_false]
        exact List.Forall₂.cons h1 ih

theorem sortByAmountAsc_congr {l l' : List Utxo}
    (h : List.Forall₂ uEquiv l l') :
    List.Forall₂ uEquiv (sortByAmountAsc l) (sortByAmountAsc l') := by
  induction h with
  | nil => exact List.Forall₂.nil
  | cons h1 _ ih => exact insertByAmountAsc_congr h1 ih

/-- Equivalence of optional best selections. -/
def olEquiv : Option (List Utxo) → Option (List Utxo) → Prop
  | some l, some l' => List.Forall₂ uEquiv l l'
  | none, none => True
  | _, _ => False

/-- Equivalence of branch-and-bound best pairs: related selections, equal
waste. -/
def bEquiv (b b' : Option (List Utxo) × Nat) : Prop :=
  olEquiv b.1 b'.1 ∧ b.2 = b'.2

theorem bnbSearch_congr (target : Nat) :
    ∀ (n : Nat) (utxos utxos' : List Utxo),
      List.Forall₂ uEquiv utxos utxos' →
      ∀ (s : Nat) (sel sel' : List Utxo), List.Forall₂ uEquiv sel sel' →
      ∀ (best best' : Option (List Utxo) × Nat), bEquiv best best' →
      ∀ (i : Nat), utxos.length - i ≤ n →
      bEquiv (bnbSearch utxos target s sel best i)
        (bnbSearch utxos' target s sel' best' i) := by
  intro n
  induction n with
  | zero =>
      intro utxos utxos' hF s sel sel' hsel best best' hbest i hle
      have hlen := hF.length_eq
      unfold bnbSearch
      by_cases hs : s ≥ target
      · simp only [hs, if_true, hbest.2]
        by_cases hw : s - target < best'.2
        · simp only [hw, if_true]
          exact ⟨hsel, rfl⟩
        · simp only [hw, if_false]
          exact hbest
      · have hni : ¬ i < utxos.length := by omega
        have hni' : ¬ i < utxos'.length := by omega
        simp only [hs, if_false, hni, hni', dif_neg, not_false_iff]
        exact hbest
  | succ n ih =>
      intro utxos utxos' hF s sel sel' hsel best best' hbest i hle
      have hlen := hF.length_eq
      unfold bnbSearch
      by_cases hs : s ≥ target
      · simp only [hs, if_true, hbest.2]
        by_cases hw : s - target < best'.2
        · simp only [hw, if_true]
          exact ⟨hsel, rfl⟩
        · simp only [hw, if_false]
          exact hbest
      · by_cases hi : i < utxos.length
        · have hi' : i < utxos'.length := by omega
          have hm : utxos.length - (i + 1) ≤ n := by omega
          have hui := hF.get hi hi'
          simp only [hs, if_false, hi, hi', dif_pos]
          have hamt : utxos[i].amount = utxos'[i].amount := by
            simpa [List.get_eq_getElem] using hui.amount_eq
          rw [← hamt]
          have hsel1 : List.Forall₂ uEquiv (sel ++ [utxos[i]])
              (sel' ++ [utxos'[i]]) := by
            refine List.rel_append hsel ?_
            refine List.Forall₂.cons ?_ List.Forall₂.nil
            simpa [List.get_eq_getElem] using hui
          have hbest1 := ih utxos utxos' hF (s + utxos[i].amount) _ _ hsel1
            best best' hbest (i + 1) hm
          exact ih utxos utxos' hF s sel sel' hsel _ _ hbest1 (i + 1) hm
        · have hi' : ¬ i < utxos'.length := by omega
          simp only [hs, if_false, hi, hi', dif_neg, not_false_iff]
          exact hbest

/-- Equivalence of selection results: identical error, or related
selections with equal change. -/
def selEquiv : Except ContractError (List Utxo × Nat) →
    Except ContractError (List Utxo × Nat) → Prop
  | Except.error e, Except.error e' => e = e'
  | Except.ok r, Except.ok r' => List.Forall₂ uEquiv r.1 r'.1 ∧ r.2 = r'.2
  | _, _ => False

theorem knapsackGo_congr (amount : Nat) (fee_rate : ℚ) :
    ∀ {l l' : List Utxo}, List.Forall₂ uEquiv l l' →
    ∀ (sel sel' : List Utxo), List.Forall₂ uEquiv sel sel' →
    ∀ (tot : Nat),
      selEquiv (knapsackGo amount fee_rate l sel tot)
        (knapsackGo amount fee_rate l' sel' tot) := by
  intro l l' h
  induction h with
  | nil =>
      intro sel sel' _ tot
      simp only [knapsackGo]
      rfl
  | cons h1 h2 ih =>
      intro sel sel' hsel tot
      rename_i a b as bs
      simp only [knapsackGo]
      have hsel1 : List.Forall₂ uEquiv (sel ++ [a]) (sel' ++ [b]) :=
        List.rel_append hsel (List.Forall₂.cons h1 List.Forall₂.nil)
      have hsz := sumSize_congr hsel1
      rw [h1.amount_eq, hsz]
      by_cases hc : tot + b.amount ≥ amount +
          f64toU64 ((((sel' ++ [b]).map Utxo.estimate_input_size).sum + 70 : Nat)
            * fee_rate / 1000)
      · simp only [hc, if_true]
        exact ⟨hsel1, rfl⟩
      · simp only [hc, if_false]
        exact ih _ _ hsel1 _

/-- C10: coin selection never consults `spendable` or `confirmations`.
For two sets whose members (in iteration order) differ only in those two
fields — hence with equal cached totals — `select_utxos` produces related
results: the same error, or selections with identical references and the
same change. -/
theorem select_utxos_ignores_flags (s s' : UtxoSet) (amount : Nat)
    (fee_rate : ℚ)
    (hu : List.Forall₂ uEquiv s.utxos s'.utxos)
    (ht : s.total_amount = s'.total_amount) :
    selEquiv (s.select_utxos amount fee_rate)
      (s'.select_utxos amount fee_rate) ∧
    (∀ sel ch sel' ch',
      s.select_utxos amount fee_rate = Except.ok (sel, ch) →
      s'.select_utxos amount fee_rate = Except.ok (sel', ch') →
      sel.map Utxo.reference = sel'.map Utxo.reference ∧ ch = ch') := by
  have main : selEquiv (s.select_utxos amount fee_rate)
      (s'.select_utxos amount fee_rate) := by
    unfold UtxoSet.select_utxos
    by_cases hlt : s'.total_amount < amount
    · rw [ht]
      simp only [hlt, if_true]
      rfl
    · rw [ht]
      simp only [hlt, if_false]
      unfold UtxoSet.select_exact_match
      have hp1 : ∀ u v, uEquiv u v →
          (fun u : Utxo => u.amount == amount +
            f64toU64 (((u.estimate_input_size + 70 : Nat) : ℚ) * fee_rate / 1000)) u =
          (fun u : Utxo => u.amount == amount +
            f64toU64 (((u.estimate_input_size + 70 : Nat) : ℚ) * fee_rate / 1000)) v := by
        intro u v huv
        simp only [Utxo.estimate_input_size, huv.amount_eq]
      have hf1 := find?_congr _ hp1 hu
      rcases hfu : s.utxos.find? _ with _ | u <;>
        rcases hfv : s'.utxos.find? _ with _ | v <;>
        rw [hfu, hfv] at hf1
      · unfold UtxoSet.select_single_with_change
        have hp2 : ∀ u v, uEquiv u v →
            (fun u : Utxo => decide (u.amount > amount +
              f64toU64 (((u.estimate_input_size + 70 : Nat) : ℚ) * fee_rate / 1000))) u =
            (fun u : Utxo => decide (u.amount > amount +
              f64toU64 (((u.estimate_input_size + 70 : Nat) : ℚ) * fee_rate / 1000))) v := by
          intro u v huv
          simp only [Utxo.estimate_input_size, huv.amount_eq]
        have hf2 := find?_congr _ hp2 hu
        rcases hgu : s.utxos.find? _ with _ | u2 <;>
          rcases hgv : s'.utxos.find? _ with _ | v2 <;>
          rw [hgu, hgv] at hf2
        · unfold UtxoSet.select_branch_and_bound
          dsimp only
          have hsorted := sortByAmountDesc_congr hu
          have hb := bnbSearch_congr amount (sortByAmountDesc s.utxos).length
            _ _ hsorted 0 [] [] List.Forall₂.nil (none, U64MAX) (none, U64MAX)
            ⟨trivial, rfl⟩ 0 (by omega)
          rcases hru : bnbSearch (sortByAmountDesc s.utxos) amount 0 []
              (none, U64MAX) 0 with ⟨osel, w⟩
          rcases hrv : bnbSearch (sortByAmountDesc s'.utxos) amount 0 []
              (none, U64MAX) 0 with ⟨osel', w'⟩
          rw [hru, hrv] at hb
          rcases osel with _ | selu <;> rcases osel' with _ | selv
          · dsimp only
            unfold UtxoSet.select_knapsack
            exact knapsackGo_congr amount fee_rate (sortByAmountAsc_congr hu)
              [] [] List.Forall₂.nil 0
          · exact absurd hb.1 (by simp [olEquiv])
          · exact absurd hb.1 (by simp [olEquiv])
          · dsimp only
            have hsel : List.Forall₂ uEquiv selu selv := hb.1
            have hamt := sumAmount_congr hsel
            have hsz := sumSize_congr hsel
            rw [hamt, hsz]
            by_cases hcc : (selv.map Utxo.amount).sum > amount +
                f64toU64 ((((selv.map Utxo.estimate_input_size).sum + 70 : Nat) : ℚ)
                  * fee_rate / 1000)
            · simp only [hcc, if_true]
              exact ⟨hsel, rfl⟩
            · simp only [hcc, if_false]
              unfold UtxoSet.select_knapsack
              exact knapsackGo_congr amount fee_rate (sortByAmountAsc_congr hu)
                [] [] List.Forall₂.nil 0
        · exact absurd hf2 (by simp [oEquiv])
        · exact absurd hf2 (by simp [oEquiv])
        · exact ⟨List.Forall₂.cons hf2 List.Forall₂.nil, by
            simp [hf2.amount_eq, Utxo.estimate_input_size]⟩
      · exact absurd hf1 (by simp [oEquiv])
      · exact absurd hf1 (by simp [oEquiv])
      · exact ⟨List.Forall₂.cons hf1 List.Forall₂.nil, rfl⟩
  refine ⟨main, ?_⟩
  intro sel ch sel' ch' hok hok'
  rw [hok, hok'] at main
  exact ⟨mapRef_congr main.1, main.2⟩

/-- `setBig` with the `spendable` flag cleared and a different
confirmation count on its member. -/
def setBigUnspendable : UtxoSet :=
  { utxos := [{ txid := "a", vout := 0, amount := 1100, confirmations := 0,
                script_pubkey := "p", address := "x", spendable := false }],
    total_amount := 1100 }

/-- C10 witness: selection from `setBig` and from its
flags-differing twin produces related results at target 1000, fee rate
1. -/
theorem select_utxos_ignores_flags_witness :
    selEquiv (setBig.select_utxos 1000 1)
      (setBigUnspendable.select_utxos 1000 1) ∧
    (∀ sel ch sel' ch',
      setBig.select_utxos 1000 1 = Except.ok (sel, ch) →
      setBigUnspendable.select_utxos 1000 1 = Except.ok (sel', ch') →
      sel.map Utxo.reference = sel'.map Utxo.reference ∧ ch = ch') :=
  select_utxos_ignores_flags setBig setBigUnspendable 1000 1
    (List.Forall₂.cons ⟨rfl, rfl, rfl, rfl, rfl⟩ List.Forall₂.nil) rfl
